import Mathlib

set_option maxHeartbeats 1000000

/-!
Verification of the room membership and relay engine.

Shallow embedding of the signaling server (richest variant: the
"fixed + safer + require-name" `server.js`).  The transport substrate is
socket.io, whose relevant semantics are modelled explicitly:

* `io.sockets.adapter.rooms` is a single shared map from room name to the
  set of socket ids in that room.  Every connected socket is automatically a
  member of a room named by its own socket id; `io.to(x)` broadcasts to all
  sockets in room `x` (no sender exclusion), while `socket.to(x)` excludes
  the sender.  Room identifiers and socket ids live in one namespace.
* When the `disconnect` event fires, the socket has already been removed
  from every adapter room.
* JS `Map`/`Set` iterate in insertion order; sets are modelled as
  duplicate-free lists, maps as association lists in insertion order.

JS strings are modelled as Lean `String`, `String.prototype.trim` and
`slice(0, n)` as character-list operations.
-/

namespace Hub

/-- Primitive JavaScript values (everything except objects). -/
inductive JsPrim where
  | undef : JsPrim
  | null : JsPrim
  | boolV (b : Bool) : JsPrim
  | numV (n : Int) : JsPrim
  | strV (s : String) : JsPrim
deriving Repr, DecidableEq

/-- JavaScript values as far as the server inspects them: primitives, or a
single level of object whose fields are primitives (the shapes the server
actually reads: `clientMeta` fields, chat `text`, signal `data`). -/
inductive JsVal where
  | prim (p : JsPrim) : JsVal
  | objV (fields : List (String × JsPrim)) : JsVal
deriving Repr, DecidableEq

/-- `typeof` for primitive values (`typeof null` is `"object"`). -/
def JsPrim.typeof : JsPrim → String
  | .undef => "undefined"
  | .null => "object"
  | .boolV _ => "boolean"
  | .numV _ => "number"
  | .strV _ => "string"

/-- JS truthiness test (negated): primitives that coerce to `false`. -/
def JsPrim.falsy : JsPrim → Bool
  | .undef => true
  | .null => true
  | .boolV b => !b
  | .numV n => n == 0
  | .strV s => s.isEmpty

def JsVal.typeof : JsVal → String
  | .prim p => p.typeof
  | .objV _ => "object"

def JsVal.falsy : JsVal → Bool
  | .prim p => p.falsy
  | .objV _ => false

/-- Property read `v.k` on a JS value; absent fields read as `undefined`. -/
def jsGet : JsVal → String → JsPrim
  | .objV fields, k =>
    match fields.find? (fun kv => kv.1 == k) with
    | some kv => kv.2
    | none => .undef
  | .prim _, _ => (.undef)

/-- Whitespace predicate for `String.prototype.trim`. -/
def wsChar (c : Char) : Bool := c.isWhitespace

/-- Strip leading and trailing whitespace from a character list. -/
def trimChars (l : List Char) : List Char :=
  ((l.dropWhile wsChar).reverse.dropWhile wsChar).reverse

/-- JS `s.trim()`. -/
def jsTrim (s : String) : String := String.mk (trimChars s.data)

/-- JS `s.slice(0, n)`. -/
def jsSlice (n : Nat) (s : String) : String := String.mk (s.data.take n)

/-- JS `s.length`. -/
def jsLength (s : String) : Nat := s.data.length

/-- `sanitizeName` from the source: trims, defaults to `"Anonymous"` for
missing / non-string / whitespace-only input, caps at 50 characters. -/
def sanitizeName (name : JsVal) : String :=
  if name.falsy || !(name.typeof == "string") then "Anonymous"
  else
    match name with
    | .prim (.strV s) =>
      let n := jsTrim s
      if n = "" then "Anonymous"
      else if 50 < jsLength n then jsSlice 50 n
      else n
    | _ => "Anonymous"

/-- A sanitized metadata object: string-keyed primitive fields in insertion
order, mirroring the JS object literal `out` built by `sanitizeMeta`. -/
abbrev MetaObj := List (String × JsPrim)

/-- The whitelisted metadata fields and their length caps. -/
def metaCaps : List (String × Nat) :=
  [("deviceType", 20), ("language", 20), ("timezone", 50),
   ("countryGuess", 20), ("userAgent", 120)]

/-- One whitelisted field of `sanitizeMeta`: kept (truncated) when the
input field is a string, dropped otherwise. -/
def metaPick (meta : JsVal) (k : String) (cap : Nat) : MetaObj :=
  match jsGet meta k with
  | .strV s => [(k, .strV (jsSlice cap s))]
  | _ => []

/-- `sanitizeMeta` from the source: keeps only the five whitelisted string
fields (each truncated), then stamps `_sanitizedAt = Date.now()`. -/
def sanitizeMeta (meta : JsVal) (now : Nat) : MetaObj :=
  if meta.falsy || !(meta.typeof == "object") then []
  else
    metaPick meta "deviceType" 20 ++ metaPick meta "language" 20 ++
    metaPick meta "timezone" 50 ++ metaPick meta "countryGuess" 20 ++
    metaPick meta "userAgent" 120 ++ [("_sanitizedAt", .numV now)]

/-- Per-socket `socket.data`. -/
structure ConnData where
  name : String
  room : Option String
  meta : MetaObj
deriving Repr, DecidableEq

/-- The server's mutable state: the socket.io adapter room map (shared
namespace of room names and socket ids), the connected sockets with their
`socket.data`, and the module-level `roomMembersMap` delta snapshot. -/
structure HubState where
  adapter : List (String × List String)
  socks : List (String × ConnData)
  snap : List (String × List String)
deriving Repr, DecidableEq

def initState : HubState := ⟨[], [], []⟩

/-- Association-list lookup (first match). -/
def alookup {α : Type} : List (String × α) → String → Option α
  | [], _ => none
  | kv :: rest, k => if kv.1 = k then some kv.2 else alookup rest k

/-- Association-list update: replace the first binding of `k`, or append a
new binding at the end (JS `Map.set` insertion-order semantics). -/
def aset {α : Type} : List (String × α) → String → α → List (String × α)
  | [], k, v => [(k, v)]
  | kv :: rest, k, v => if kv.1 = k then (k, v) :: rest else kv :: aset rest k v

/-- Association-list deletion (JS `Map.delete`). -/
def adel {α : Type} : List (String × α) → String → List (String × α)
  | [], _ => []
  | kv :: rest, k => if kv.1 = k then adel rest k else kv :: adel rest k

/-- JS `Set.add`: append if not already present. -/
def sadd (l : List String) (x : String) : List String :=
  if x ∈ l then l else l ++ [x]

/-- JS `Set.delete`. -/
def sdel : List String → String → List String
  | [], _ => []
  | x :: rest, y => if x = y then sdel rest y else x :: sdel rest y

/-- Adapter membership of room `r` (empty when the room has no entry). -/
def adMem (st : HubState) (r : String) : List String :=
  (alookup st.adapter r).getD []

/-- Snapshot (`roomMembersMap`) membership of room `r`. -/
def snMem (st : HubState) (r : String) : List String :=
  (alookup st.snap r).getD []

/-- Ids of the currently connected sockets. -/
def conns (st : HubState) : List String := st.socks.map Prod.fst

/-- `socket.data` of a socket id, if connected. -/
def dataOf (st : HubState) (sid : String) : Option ConnData :=
  alookup st.socks sid

/-- The socket's current `socket.data.room`. -/
def dataRoom (st : HubState) (sid : String) : Option String :=
  (dataOf st sid).bind ConnData.room

/-- Direct read of `socket.data.name` (default irrelevant: only read inside
the socket's own handlers). -/
def rawName (st : HubState) (sid : String) : String :=
  ((dataOf st sid).map ConnData.name).getD "Anonymous"

/-- Direct read of `socket.data.meta`. -/
def rawMeta (st : HubState) (sid : String) : MetaObj :=
  ((dataOf st sid).map ConnData.meta).getD []

/-- `socket.data.name || 'Anonymous'` — the falsy-guarded read used by the
roster, chat, leave and disconnect code paths. -/
def resolvedName (st : HubState) (sid : String) : String :=
  match dataOf st sid with
  | some d => if d.name = "" then "Anonymous" else d.name
  | none => "Anonymous"

/-- Update one socket's `socket.data` in place. -/
def setConn (st : HubState) (sid : String) (f : ConnData → ConnData) : HubState :=
  { st with socks := st.socks.map (fun kv => if kv.1 = sid then (kv.1, f kv.2) else kv) }

/-- `socket.join(r)`. -/
def adapterJoin (st : HubState) (sid r : String) : HubState :=
  { st with adapter := aset st.adapter r (sadd (adMem st r) sid) }

/-- `socket.leave(r)`; socket.io drops adapter rooms that become empty. -/
def adapterLeave (st : HubState) (sid r : String) : HubState :=
  let ms := sdel (adMem st r) sid
  { st with adapter := if ms = [] then adel st.adapter r else aset st.adapter r ms }

/-- Remove a socket from every adapter room (list-level). -/
def leaveAllList (l : List (String × List String)) (sid : String) :
    List (String × List String) :=
  (l.map (fun kv => (kv.1, sdel kv.2 sid))).filter (fun kv => !kv.2.isEmpty)

/-- What socket.io does right before the `disconnect` event fires: the
socket leaves all of its rooms. -/
def adapterLeaveAll (st : HubState) (sid : String) : HubState :=
  { st with adapter := leaveAllList st.adapter sid }

/-- Roster entry with resolved identity: `{ id, name, meta }`. -/
structure MemberInfo where
  id : String
  name : String
  meta : MetaObj
deriving Repr, DecidableEq

/-- Recipient selector of an outbound emission. -/
inductive Recipient where
  | sock (sid : String) : Recipient
  | room (r : String) : Recipient
  | roomExcept (r : String) (sid : String) : Recipient
deriving Repr, DecidableEq

/-- The outbound events of the hub, with their payload shapes. -/
inductive OutEvent where
  | errorMsg (message : String) : OutEvent
  | requireName (message : String) : OutEvent
  | existingPeers (peers : List MemberInfo) : OutEvent
  | peerJoined (m : MemberInfo) : OutEvent
  | peerLeft (m : MemberInfo) : OutEvent
  | sig (src : String) (data : JsVal) : OutEvent
  | chatMsg (src : String) (name : String) (text : String) : OutEvent
  | roomMembers (members : List MemberInfo) (count : Nat) (ts : Nat) : OutEvent
  | roomMeta (count : Nat) (ts : Nat) : OutEvent
  | roomDelta (joined : List MemberInfo) (left : List MemberInfo) (ts : Nat) : OutEvent
deriving Repr, DecidableEq

structure Emission where
  recip : Recipient
  ev : OutEvent
deriving Repr, DecidableEq

/-- Which sockets an emission reaches: `socket.emit` hits exactly the one
socket; `io.to(r)` hits every socket in adapter room `r` (a socket id names
the room containing just that socket); `socket.to(r)` excludes the sender. -/
def recipients (st : HubState) : Recipient → List String
  | .sock sid => [sid]
  | .room r => adMem st r
  | .roomExcept r sid => (adMem st r).filter (fun x => x != sid)

/-- `{ id, name: data.name || 'Anonymous', meta: data.meta || {} }`. -/
def memberInfoOf (st : HubState) (sid : String) : MemberInfo :=
  ⟨sid, resolvedName st sid, rawMeta st sid⟩

/-- `getRoomClientIds` from the source. -/
def getRoomClientIds (st : HubState) (room : String) : List String :=
  adMem st room

/-- `getRoomMembersWithMeta` from the source. -/
def getRoomMembersWithMeta (st : HubState) (room : String) : List MemberInfo :=
  (getRoomClientIds st room).map (memberInfoOf st)

/-- `emitRoomMembers` from the source: the full roster to the whole room,
followed by the lightweight `roomMeta` with the same count and timestamp. -/
def emitRoomMembers (st : HubState) (room : String) (now : Nat) :
    List Emission × List MemberInfo :=
  let members := getRoomMembersWithMeta st room
  ([⟨.room room, .roomMembers members members.length now⟩,
    ⟨.room room, .roomMeta members.length now⟩], members)

structure Delta where
  joined : List MemberInfo
  left : List MemberInfo
deriving Repr, DecidableEq

/-- `emitRoomDelta` from the source: diff the stored snapshot against the
adapter's current membership, replace the snapshot (deleting it when the
room is now empty), and broadcast `roomDelta` only when non-empty. -/
def emitRoomDelta (st : HubState) (room : String) (now : Nat) :
    HubState × List Emission × Delta :=
  let prevSet := snMem st room
  let currentClients := getRoomClientIds st room
  let joined := (currentClients.filter (fun id => !prevSet.contains id)).map (memberInfoOf st)
  let left := (prevSet.filter (fun id => !currentClients.contains id)).map (memberInfoOf st)
  let st' : HubState :=
    { st with snap := if currentClients = [] then adel st.snap room
                      else aset st.snap room currentClients }
  let ems : List Emission :=
    if joined = [] ∧ left = [] then [] else [⟨.room room, .roomDelta joined left now⟩]
  (st', ems, ⟨joined, left⟩)

/-- The manual `roomMembersMap` removal performed by the leave / disconnect /
room-switch code paths. -/
def snapManualDel (st : HubState) (room sid : String) : HubState :=
  match alookup st.snap room with
  | some ms =>
    if sid ∈ ms then
      let ms' := sdel ms sid
      { st with snap := if ms' = [] then adel st.snap room else aset st.snap room ms' }
    else st
  | none => st

/-- Truthiness of an optional string (missing or empty is falsy). -/
def optTruthy : Option String → Bool
  | some s => !s.isEmpty
  | none => false

/-- The previous-room cleanup block of the `join` handler: when the socket
is already in a room, notify its peers, leave it, update the snapshot, and
run the delta and roster emissions for the old room. -/
def prevRoomCleanup (st1 : HubState) (sid : String) (now : Nat) :
    HubState × List Emission :=
  match dataRoom st1 sid with
  | some prevRoom =>
    let e1 : Emission := ⟨.roomExcept prevRoom sid,
      .peerLeft ⟨sid, rawName st1 sid, rawMeta st1 sid⟩⟩
    let stA := adapterLeave st1 sid prevRoom
    let stB := snapManualDel stA prevRoom sid
    let res := emitRoomDelta stB prevRoom now
    let resM := emitRoomMembers res.1 prevRoom now
    (res.1, e1 :: res.2.1 ++ resM.1)
  | none => (st1, [])

/-- `if (!roomMembersMap.has(room)) roomMembersMap.set(room, new Set());
roomMembersMap.get(room).add(socket.id)`. -/
def snapAdd (st : HubState) (r sid : String) : HubState :=
  { st with snap := aset st.snap r (sadd (snMem st r) sid) }

/-- The new-room registration block of the `join` handler: adapter join,
room field update, `existingPeers` to the requester, `peer-joined` to the
others, snapshot add, then delta and roster emissions. -/
def registerJoin (st2 : HubState) (sid r : String) (now : Nat) :
    HubState × List Emission :=
  let st3 := adapterJoin st2 sid r
  let st4 := setConn st3 sid (fun d => { d with room := some r })
  let otherClients := ((getRoomClientIds st4 r).filter (fun x => x != sid)).map (memberInfoOf st4)
  let e2 : Emission := ⟨.sock sid, .existingPeers otherClients⟩
  let e3 : Emission := ⟨.roomExcept r sid, .peerJoined ⟨sid, rawName st4 sid, rawMeta st4 sid⟩⟩
  let st5 := snapAdd st4 r sid
  let res2 := emitRoomDelta st5 r now
  let resM2 := emitRoomMembers res2.1 r now
  (res2.1, [e2, e3] ++ res2.2.1 ++ resM2.1)

/-- The `join` handler (require-name variant): name gate, room gate,
identity update, same-room resync, previous-room cleanup, then new-room
registration with roster/delta broadcasts. -/
def handleJoin (st : HubState) (sid : String) (room : Option String)
    (name clientMeta : JsVal) (now : Nat) : HubState × List Emission :=
  let trimmedName := match name with | .prim (.strV s) => jsTrim s | _ => ""
  if trimmedName = "" then
    (st, [⟨.sock sid, .requireName "Name required to join the room"⟩])
  else if !optTruthy room then
    (st, [⟨.sock sid, .errorMsg "room required"⟩])
  else
    let r := room.getD ""
    let safeName := sanitizeName (.prim (.strV trimmedName))
    let st1 := setConn st sid (fun d => { d with name := safeName, meta := sanitizeMeta clientMeta now })
    if dataRoom st1 sid = some r then
      (st1, [⟨.sock sid, .existingPeers ((getRoomMembersWithMeta st1 r).filter (fun m => m.id != sid))⟩])
    else
      let cleanup := prevRoomCleanup st1 sid now
      let reg := registerJoin cleanup.1 sid r now
      (reg.1, cleanup.2 ++ reg.2)

/-- The `signal` handler: point-to-point via `io.to(to)` when a target is
given, else broadcast to the sender's room excluding the sender. -/
def handleSignal (st : HubState) (sid : String) (toTarget : Option String)
    (data : JsVal) : HubState × List Emission :=
  if data.falsy then (st, [])
  else if optTruthy toTarget then
    (st, [⟨.room (toTarget.getD ""), .sig sid data⟩])
  else if optTruthy (dataRoom st sid) then
    (st, [⟨.roomExcept ((dataRoom st sid).getD "") sid, .sig sid data⟩])
  else (st, [])

/-- The `chatMessage` handler: silent no-op unless `room` is truthy and
`text` is a string; otherwise relay to the named room excluding sender. -/
def handleChat (st : HubState) (sid : String) (room : Option String)
    (text : JsVal) : HubState × List Emission :=
  if !optTruthy room then (st, [])
  else
    match text with
    | .prim (.strV s) =>
      (st, [⟨.roomExcept (room.getD "") sid, .chatMsg sid (resolvedName st sid) s⟩])
    | _ => (st, [])

/-- The `leave` handler. -/
def handleLeave (st : HubState) (sid : String) (now : Nat) :
    HubState × List Emission :=
  match dataRoom st sid with
  | some room =>
    let e1 : Emission := ⟨.roomExcept room sid,
      .peerLeft ⟨sid, resolvedName st sid, rawMeta st sid⟩⟩
    let st1 := adapterLeave st sid room
    let st2 := setConn st1 sid (fun d => { d with room := none })
    let st3 := snapManualDel st2 room sid
    let res := emitRoomDelta st3 room now
    let resM := emitRoomMembers res.1 room now
    (res.1, e1 :: res.2.1 ++ resM.1)
  | none => (st, [])

/-- The room-notification part of the `disconnect` handler, running after
the adapter has already dropped the socket from every room. -/
def disconnectCleanup (st0 : HubState) (sid : String) (now : Nat) :
    HubState × List Emission :=
  match dataRoom st0 sid with
  | some room =>
    let e1 : Emission := ⟨.roomExcept room sid,
      .peerLeft ⟨sid, resolvedName st0 sid, rawMeta st0 sid⟩⟩
    let st1 := snapManualDel st0 room sid
    let res2 := emitRoomDelta st1 room now
    let resM := emitRoomMembers res2.1 room now
    (res2.1, e1 :: res2.2.1 ++ resM.1)
  | none => (st0, [])

/-- The `disconnect` handler; the adapter has already dropped the socket
from every room when it runs, and the socket's data dies with it. -/
def handleDisconnect (st : HubState) (sid : String) (now : Nat) :
    HubState × List Emission :=
  let res := disconnectCleanup (adapterLeaveAll st sid) sid now
  ({ res.1 with socks := res.1.socks.filter (fun kv => kv.1 != sid) }, res.2)

/-- Inbound events, tagged with the originating socket id. -/
inductive Event where
  | connect (sid : String) : Event
  | join (sid : String) (room : Option String) (name clientMeta : JsVal) : Event
  | signal (sid : String) (toTarget : Option String) (data : JsVal) : Event
  | chat (sid : String) (room : Option String) (text : JsVal) : Event
  | leave (sid : String) : Event
  | disconnect (sid : String) : Event
deriving Repr, DecidableEq

/-- One orchestrator step.  Events for sockets the transport has not
connected (or has already destroyed) never reach the handlers. -/
def step (st : HubState) (ev : Event) (now : Nat) : HubState × List Emission :=
  match ev with
  | .connect sid =>
    if sid ∈ conns st then (st, [])
    else ({ st with socks := st.socks ++ [(sid, ⟨"Anonymous", none, []⟩)],
                    adapter := aset st.adapter sid (sadd (adMem st sid) sid) }, [])
  | .join sid room name meta =>
    if sid ∈ conns st then handleJoin st sid room name meta now else (st, [])
  | .signal sid toT data =>
    if sid ∈ conns st then handleSignal st sid toT data else (st, [])
  | .chat sid room text =>
    if sid ∈ conns st then handleChat st sid room text else (st, [])
  | .leave sid =>
    if sid ∈ conns st then handleLeave st sid now else (st, [])
  | .disconnect sid =>
    if sid ∈ conns st then handleDisconnect st sid now else (st, [])

/-- Process a list of events (the clock ticks once per event). -/
def runAux : HubState → List Event → Nat → HubState × List (List Emission)
  | st, [], _ => (st, [])
  | st, ev :: rest, n =>
    let r1 := step st ev n
    let r2 := runAux r1.1 rest (n + 1)
    (r2.1, r1.2 :: r2.2)

/-- Final state after processing a sequence of events from startup. -/
def runState (evs : List Event) : HubState := (runAux initState evs 0).1

/-- Per-event emission lists of a run. -/
def runEmissions (evs : List Event) : List (List Emission) :=
  (runAux initState evs 0).2

/-- Recognizer for `roomDelta` emissions. -/
def isRoomDelta : OutEvent → Bool
  | .roomDelta _ _ _ => true
  | _ => false

/-- Recognizer for `peer-left` emissions. -/
def isPeerLeft : OutEvent → Bool
  | .peerLeft _ => true
  | _ => false

/-- Every `roomMembers` emission goes to an entire room and is immediately
followed by a `roomMeta` emission to the same recipients carrying the same
timestamp and a count equal to the length of the members array. -/
def rosterPaired : List Emission → Bool
  | [] => true
  | e :: rest =>
    (match e.ev, rest with
     | .roomMembers ms c t, e2 :: _ =>
       (match e.recip with | .room _ => true | _ => false) &&
       e2.recip == e.recip &&
       (match e2.ev with
        | .roomMeta c2 t2 => c2 == c && t2 == t && c == ms.length
        | _ => false)
     | .roomMembers _ _ _, [] => false
     | _, _ => true) && rosterPaired rest

/-- The room names clients join during a sequence of events. -/
def joinsRoom (evs : List Event) (r : String) : Prop :=
  ∃ sid name meta, Event.join sid (some r) name meta ∈ evs

/-- The socket ids the transport connects during a sequence of events. -/
def connectsId (evs : List Event) (i : String) : Prop :=
  Event.connect i ∈ evs

/-- Per-event side condition for the membership invariant: connected ids
come from `Iset`, joined room names from `Rset`. -/
def evOK (Rset Iset : String → Prop) : Event → Prop
  | .connect sid => Iset sid
  | .join _ room _ _ => ∀ r, room = some r → Rset r
  | _ => True

/-- Trace: a connection signals with an explicit target equal to its own id. -/
def sigEchoTrace : List Event :=
  [.connect "a", .signal "a" (some "a") (.prim (.numV 1))]

/-- Trace: two members in room R1, then the first switches to room R2. -/
def switchTrace : List Event :=
  [.connect "a", .connect "b",
   .join "a" (some "R1") (.prim (.strV "alice")) (.prim .undef),
   .join "b" (some "R1") (.prim (.strV "bob")) (.prim .undef),
   .join "a" (some "R2") (.prim (.strV "alice")) (.prim .undef)]

/-- Trace: client b joins a room named after the live socket id "a", then a
also joins a room of its own — the shared adapter namespace drags a's id
into room "a"'s membership. -/
def collisionTrace : List Event :=
  [.connect "a", .connect "b",
   .join "b" (some "a") (.prim (.strV "bob")) (.prim .undef),
   .join "a" (some "x") (.prim (.strV "al")) (.prim .undef)]

/-- Trace: room named after socket id "a" is joined and left by b, then a
disconnects while never having joined — leaving a stale snapshot entry for
a room with no live members. -/
def staleTrace : List Event :=
  [.connect "a", .connect "b",
   .join "b" (some "a") (.prim (.strV "bob")) (.prim .undef),
   .leave "b", .disconnect "a"]

/-- Trace: a join carrying a valid room but no name. -/
def namelessJoinTrace : List Event :=
  [.connect "a", .join "a" (some "r") (.prim .undef) (.prim .undef)]

/-- Trace: a join carrying an empty metadata object. -/
def metaJoinTrace : List Event :=
  [.connect "a", .join "a" (some "r") (.prim (.strV "al")) (.objV [])]

/-- Trace: one client joins room "r1" after connecting. -/
def soloJoinTrace : List Event :=
  [.connect "a", .join "a" (some "r1") (.prim (.strV "al")) (.prim .undef)]

/-- Trace: b joins room "R" and then leaves it, emptying the room. -/
def joinLeaveTrace : List Event :=
  [.connect "a", .connect "b",
   .join "b" (some "R") (.prim (.strV "bob")) (.prim .undef),
   .leave "b"]

/-- Trace: b sits in room "R" while a stays roomless. -/
def chatGhostTrace : List Event :=
  [.connect "a", .connect "b",
   .join "b" (some "R") (.prim (.strV "bob")) (.prim .undef)]

/-- The membership invariant, relative to a set `Rset` of room names and a
disjoint set `Iset` of socket ids.  It ties together the adapter's shared
room namespace, the per-socket `room` field, and the delta snapshot. -/
structure Inv (Rset Iset : String → Prop) (st : HubState) : Prop where
  connsI : ∀ x, x ∈ conns st → Iset x
  roomsR : ∀ x r, dataRoom st x = some r → Rset r
  ownRooms : ∀ i, Iset i → ∀ x, (x ∈ adMem st i ↔ (x = i ∧ i ∈ conns st))
  dataAd : ∀ r, Rset r → ∀ x, (x ∈ adMem st r ↔ dataRoom st x = some r)
  snapAd : ∀ r, Rset r → ∀ x, (x ∈ snMem st r ↔ x ∈ adMem st r)
  snapEntries : ∀ r ms, alookup st.snap r = some ms → Rset r ∧ ms ≠ []
  adKeysNodup : (st.adapter.map Prod.fst).Nodup

section AssocLemmas

variable {α : Type}

theorem mem_keys_of_alookup {l : List (String × α)} {k : String} {v : α}
    (h : alookup l k = some v) : k ∈ l.map Prod.fst := by
  induction l with
  | nil => simp [alookup] at h
  | cons kv rest ih =>
    obtain ⟨a, b⟩ := kv
    by_cases ha : a = k
    · simp [ha]
    · simp only [alookup, if_neg ha] at h
      simpa using Or.inr (ih h)

theorem alookup_eq_none_of_not_mem_keys {l : List (String × α)} {k : String}
    (h : k ∉ l.map Prod.fst) : alookup l k = none := by
  cases hh : alookup l k with
  | none => rfl
  | some v => exact absurd (mem_keys_of_alookup hh) h

theorem alookup_aset_self (l : List (String × α)) (k : String) (v : α) :
    alookup (aset l k v) k = some v := by
  induction l with
  | nil => simp [aset, alookup]
  | cons kv rest ih =>
    obtain ⟨a, b⟩ := kv
    by_cases h : a = k
    · simp [aset, h, alookup]
    · simp [aset, h, alookup, ih]

theorem alookup_aset_ne (l : List (String × α)) {k k' : String} (v : α)
    (h : k' ≠ k) : alookup (aset l k v) k' = alookup l k' := by
  have h2 : ¬ k = k' := fun hh => h hh.symm
  induction l with
  | nil => simp [aset, alookup, h2]
  | cons kv rest ih =>
    obtain ⟨a, b⟩ := kv
    by_cases hk : a = k
    · subst hk
      simp [aset, alookup, h2]
    · by_cases hk' : a = k'
      · simp [aset, hk, alookup, hk', h]
      · simp [aset, hk, alookup, hk', ih]

theorem alookup_adel_self (l : List (String × α)) (k : String) :
    alookup (adel l k) k = none := by
  induction l with
  | nil => simp [adel, alookup]
  | cons kv rest ih =>
    obtain ⟨a, b⟩ := kv
    by_cases h : a = k
    · simp [adel, h, ih]
    · simp [adel, h, alookup, ih]

theorem alookup_adel_ne (l : List (String × α)) {k k' : String}
    (h : k' ≠ k) : alookup (adel l k) k' = alookup l k' := by
  induction l with
  | nil => simp [adel]
  | cons kv rest ih =>
    obtain ⟨a, b⟩ := kv
    by_cases hk : a = k
    · subst hk
      have h2 : ¬ a = k' := fun hh => h hh.symm
      simp [adel, alookup, h2, ih]
    · simp [adel, hk, alookup, ih]

theorem alookup_append (l1 l2 : List (String × α)) (k : String) :
    alookup (l1 ++ l2) k =
      match alookup l1 k with
      | some v => some v
      | none => alookup l2 k := by
  induction l1 with
  | nil => simp [alookup]
  | cons kv rest ih =>
    obtain ⟨a, b⟩ := kv
    by_cases h : a = k
    · simp [alookup, h]
    · simp [alookup, h, ih]

theorem mem_keys_aset (l : List (String × α)) (k k' : String) (v : α) :
    k' ∈ (aset l k v).map Prod.fst ↔ k' ∈ l.map Prod.fst ∨ k' = k := by
  induction l with
  | nil => simp [aset]
  | cons kv rest ih =>
    obtain ⟨a, b⟩ := kv
    by_cases h : a = k
    · subst h
      simp [aset]
      tauto
    · simp only [aset, if_neg h, List.map_cons, List.mem_cons, ih]
      tauto

theorem nodupKeys_aset (l : List (String × α)) (k : String) (v : α)
    (h : (l.map Prod.fst).Nodup) : ((aset l k v).map Prod.fst).Nodup := by
  induction l with
  | nil => simp [aset]
  | cons kv rest ih =>
    obtain ⟨a, b⟩ := kv
    simp only [List.map_cons, List.nodup_cons] at h
    by_cases hk : a = k
    · subst hk
      have hset : aset ((a, b) :: rest) a v = (a, v) :: rest := by
        simp [aset]
      rw [hset]
      simp only [List.map_cons, List.nodup_cons]
      exact ⟨h.1, h.2⟩
    · simp only [aset, if_neg hk, List.map_cons, List.nodup_cons]
      refine ⟨?_, ih h.2⟩
      intro hmem
      rcases (mem_keys_aset rest k a v).1 hmem with h1 | h1
      · exact h.1 h1
      · exact hk h1

theorem keys_adel_sublist (l : List (String × α)) (k : String) :
    ((adel l k).map Prod.fst).Sublist (l.map Prod.fst) := by
  induction l with
  | nil => simp [adel]
  | cons kv rest ih =>
    obtain ⟨a, b⟩ := kv
    by_cases h : a = k
    · simp only [adel, if_pos h, List.map_cons]
      exact ih.trans (List.sublist_cons_self _ _)
    · simpa [adel, h] using ih.cons₂ a

theorem nodupKeys_adel (l : List (String × α)) (k : String)
    (h : (l.map Prod.fst).Nodup) : ((adel l k).map Prod.fst).Nodup :=
  (keys_adel_sublist l k).nodup h

end AssocLemmas

theorem mem_sadd (l : List String) (x y : String) :
    y ∈ sadd l x ↔ y ∈ l ∨ y = x := by
  by_cases h : x ∈ l
  · simp only [sadd, if_pos h]
    constructor
    · exact Or.inl
    · rintro (hy | rfl)
      · exact hy
      · exact h
  · simp [sadd, if_neg h]

theorem sadd_ne_nil (l : List String) (x : String) : sadd l x ≠ [] := by
  by_cases h : x ∈ l
  · simp only [sadd, if_pos h]
    intro hh
    rw [hh] at h
    simp at h
  · simp [sadd, if_neg h]

theorem sdel_eq_filter (l : List String) (x : String) :
    sdel l x = l.filter (fun y => y != x) := by
  induction l with
  | nil => rfl
  | cons a rest ih =>
    by_cases h : a = x
    · subst h
      simp [sdel, List.filter_cons, ih]
    · simp [sdel, h, ih, List.filter_cons, bne_iff_ne]

theorem mem_sdel (l : List String) (x y : String) :
    y ∈ sdel l x ↔ y ∈ l ∧ y ≠ x := by
  rw [sdel_eq_filter]
  simp [List.mem_filter, bne_iff_ne]

theorem sdel_of_not_mem (l : List String) (x : String) (h : x ∉ l) :
    sdel l x = l := by
  induction l with
  | nil => rfl
  | cons a rest ih =>
    simp only [List.mem_cons, not_or] at h
    simp [sdel, Ne.symm h.1, ih h.2]

theorem alookup_leaveAllList_none (l : List (String × List String))
    (sid r : String) (h : alookup l r = none) :
    alookup (leaveAllList l sid) r = none := by
  induction l with
  | nil => simp [leaveAllList, alookup]
  | cons kv rest ih =>
    obtain ⟨a, ms⟩ := kv
    by_cases hk : a = r
    · simp [alookup, hk] at h
    · simp only [alookup, if_neg hk] at h
      by_cases he : (sdel ms sid).isEmpty
      · simpa [leaveAllList, he] using ih h
      · simpa [leaveAllList, he, alookup, hk] using ih h

theorem alookup_leaveAllList (l : List (String × List String)) (sid r : String)
    (hnd : (l.map Prod.fst).Nodup) :
    alookup (leaveAllList l sid) r =
      match alookup l r with
      | some ms => if sdel ms sid = [] then none else some (sdel ms sid)
      | none => none := by
  induction l with
  | nil => simp [leaveAllList, alookup]
  | cons kv rest ih =>
    obtain ⟨a, ms⟩ := kv
    simp only [List.map_cons, List.nodup_cons] at hnd
    by_cases hk : a = r
    · subst hk
      have hnone : alookup rest a = none :=
        alookup_eq_none_of_not_mem_keys hnd.1
      by_cases he : (sdel ms sid).isEmpty
      · have h1 : sdel ms sid = [] := by
          cases hs : sdel ms sid with
          | nil => rfl
          | cons z zs => rw [hs] at he; simp at he
        have hstep : leaveAllList ((a, ms) :: rest) sid = leaveAllList rest sid := by
          simp [leaveAllList, List.filter_cons, he]
        rw [hstep, alookup_leaveAllList_none rest sid a hnone]
        simp [alookup, h1]
      · have h1 : ¬ sdel ms sid = [] := by
          intro hh
          rw [hh] at he
          simp at he
        have hstep : leaveAllList ((a, ms) :: rest) sid
            = (a, sdel ms sid) :: leaveAllList rest sid := by
          simp [leaveAllList, List.filter_cons, he]
        rw [hstep]
        simp [alookup, h1]
    · by_cases he : (sdel ms sid).isEmpty
      · have hstep : leaveAllList ((a, ms) :: rest) sid = leaveAllList rest sid := by
          simp [leaveAllList, List.filter_cons, he]
        rw [hstep, ih hnd.2]
        simp [alookup, hk]
      · have hstep : leaveAllList ((a, ms) :: rest) sid
            = (a, sdel ms sid) :: leaveAllList rest sid := by
          simp [leaveAllList, List.filter_cons, he]
        rw [hstep]
        simp only [alookup, if_neg hk]
        exact ih hnd.2

theorem nodupKeys_leaveAllList (l : List (String × List String)) (sid : String)
    (h : (l.map Prod.fst).Nodup) :
    ((leaveAllList l sid).map Prod.fst).Nodup := by
  have hsub : ((leaveAllList l sid).map Prod.fst).Sublist
      ((l.map (fun kv => (kv.1, sdel kv.2 sid))).map Prod.fst) :=
    List.Sublist.map Prod.fst (List.filter_sublist _)
  have heq : (l.map (fun kv => (kv.1, sdel kv.2 sid))).map Prod.fst = l.map Prod.fst := by
    simp [List.map_map]
  rw [heq] at hsub
  exact hsub.nodup h

theorem contains_iff_mem (l : List String) (x : String) :
    l.contains x = true ↔ x ∈ l := by
  induction l with
  | nil => simp
  | cons a rest ih =>
    by_cases h : a = x
    · simp [h]
    · simp [List.contains_cons, ih, Ne.symm h, bne_iff_ne]

theorem filter_not_contains_self (l : List String) :
    l.filter (fun id => !l.contains id) = [] := by
  apply List.filter_eq_nil_iff.2
  intro a ha
  simp [ha]

theorem alookup_mapval {α : Type} (l : List (String × α)) (sid : String)
    (f : α → α) (x : String) :
    alookup (l.map (fun kv => if kv.1 = sid then (kv.1, f kv.2) else kv)) x =
      if x = sid then (alookup l sid).map f else alookup l x := by
  induction l with
  | nil => simp [alookup]
  | cons kv rest ih =>
    obtain ⟨a, b⟩ := kv
    by_cases ha : a = sid
    · subst ha
      by_cases hx : x = a
      · subst hx
        simp [alookup]
      · simp [alookup, hx, Ne.symm hx, ih]
    · by_cases hx : x = a
      · subst hx
        simp [alookup, ha, Ne.symm ha, ih]
      · simp [alookup, ha, Ne.symm hx, ih]

theorem setConn_adapter (st : HubState) (sid : String) (f : ConnData → ConnData) :
    (setConn st sid f).adapter = st.adapter := rfl

theorem setConn_snap (st : HubState) (sid : String) (f : ConnData → ConnData) :
    (setConn st sid f).snap = st.snap := rfl

theorem dataOf_setConn (st : HubState) (sid : String) (f : ConnData → ConnData)
    (x : String) :
    dataOf (setConn st sid f) x =
      if x = sid then (dataOf st sid).map f else dataOf st x :=
  alookup_mapval st.socks sid f x

theorem conns_setConn (st : HubState) (sid : String) (f : ConnData → ConnData) :
    conns (setConn st sid f) = conns st := by
  show (st.socks.map _).map Prod.fst = st.socks.map Prod.fst
  rw [List.map_map]
  apply List.map_congr_left
  intro kv _
  by_cases h : kv.1 = sid <;> simp [h]

theorem adMem_adapterJoin (st : HubState) (sid r r' : String) :
    adMem (adapterJoin st sid r) r' =
      if r' = r then sadd (adMem st r) sid else adMem st r' := by
  by_cases h : r' = r
  · subst h
    simp [adMem, adapterJoin, alookup_aset_self]
  · simp [adMem, adapterJoin, alookup_aset_ne _ _ h, h]

theorem adapterJoin_socks (st : HubState) (sid r : String) :
    (adapterJoin st sid r).socks = st.socks := rfl

theorem adapterJoin_snap (st : HubState) (sid r : String) :
    (adapterJoin st sid r).snap = st.snap := rfl

theorem adMem_adapterLeave (st : HubState) (sid r r' : String) :
    adMem (adapterLeave st sid r) r' =
      if r' = r then sdel (adMem st r) sid else adMem st r' := by
  have hd : (adapterLeave st sid r).adapter
      = if sdel (adMem st r) sid = [] then adel st.adapter r
        else aset st.adapter r (sdel (adMem st r) sid) := rfl
  show (alookup (adapterLeave st sid r).adapter r').getD [] = _
  rw [hd]
  by_cases h : r' = r
  · subst h
    by_cases he : sdel (adMem st r') sid = []
    · rw [if_pos he, alookup_adel_self]
      simp [he]
    · rw [if_neg he, alookup_aset_self]
      simp
  · by_cases he : sdel (adMem st r) sid = []
    · rw [if_pos he, alookup_adel_ne _ h, if_neg h]
      rfl
    · rw [if_neg he, alookup_aset_ne _ _ h, if_neg h]
      rfl

theorem adapterLeave_socks (st : HubState) (sid r : String) :
    (adapterLeave st sid r).socks = st.socks := rfl

theorem adapterLeave_snap (st : HubState) (sid r : String) :
    (adapterLeave st sid r).snap = st.snap := rfl

theorem adMem_adapterLeaveAll (st : HubState) (sid r : String)
    (h : (st.adapter.map Prod.fst).Nodup) :
    adMem (adapterLeaveAll st sid) r = sdel (adMem st r) sid := by
  unfold adMem adapterLeaveAll
  rw [alookup_leaveAllList st.adapter sid r h]
  cases hl : alookup st.adapter r with
  | none => simp [sdel]
  | some ms =>
    by_cases he : sdel ms sid = []
    · simp [he]
    · simp [he]

theorem adapterLeaveAll_socks (st : HubState) (sid : String) :
    (adapterLeaveAll st sid).socks = st.socks := rfl

theorem adapterLeaveAll_snap (st : HubState) (sid : String) :
    (adapterLeaveAll st sid).snap = st.snap := rfl

theorem snapManualDel_none (st : HubState) (room sid : String)
    (h : alookup st.snap room = none) : snapManualDel st room sid = st := by
  unfold snapManualDel
  rw [h]

theorem snapManualDel_not_mem (st : HubState) (room sid : String)
    (ms : List String) (h : alookup st.snap room = some ms) (hm : sid ∉ ms) :
    snapManualDel st room sid = st := by
  unfold snapManualDel
  rw [h]
  simp [hm]

theorem snapManualDel_mem (st : HubState) (room sid : String)
    (ms : List String) (h : alookup st.snap room = some ms) (hm : sid ∈ ms) :
    snapManualDel st room sid =
      { st with snap := if sdel ms sid = [] then adel st.snap room
                        else aset st.snap room (sdel ms sid) } := by
  unfold snapManualDel
  rw [h]
  simp [hm]

theorem snapManualDel_adapter (st : HubState) (room sid : String) :
    (snapManualDel st room sid).adapter = st.adapter := by
  cases hl : alookup st.snap room with
  | none => rw [snapManualDel_none st room sid hl]
  | some ms =>
    by_cases hm : sid ∈ ms
    · rw [snapManualDel_mem st room sid ms hl hm]
    · rw [snapManualDel_not_mem st room sid ms hl hm]

theorem snapManualDel_socks (st : HubState) (room sid : String) :
    (snapManualDel st room sid).socks = st.socks := by
  cases hl : alookup st.snap room with
  | none => rw [snapManualDel_none st room sid hl]
  | some ms =>
    by_cases hm : sid ∈ ms
    · rw [snapManualDel_mem st room sid ms hl hm]
    · rw [snapManualDel_not_mem st room sid ms hl hm]

theorem mem_snMem_snapManualDel_self (st : HubState) (room sid x : String) :
    x ∈ snMem (snapManualDel st room sid) room ↔
      (x ∈ snMem st room ∧ x ≠ sid) := by
  cases hl : alookup st.snap room with
  | none =>
    rw [snapManualDel_none st room sid hl]
    simp [snMem, hl]
  | some ms =>
    have hsn : snMem st room = ms := by simp [snMem, hl]
    by_cases hmem : sid ∈ ms
    · rw [snapManualDel_mem st room sid ms hl hmem]
      by_cases he : sdel ms sid = []
      · rw [if_pos he]
        have h0 : snMem { st with snap := adel st.snap room } room = [] := by
          simp [snMem, alookup_adel_self]
        rw [h0, hsn]
        constructor
        · intro hx
          simp at hx
        · rintro ⟨hx, hne⟩
          have hmem2 : x ∈ sdel ms sid := (mem_sdel ms sid x).2 ⟨hx, hne⟩
          rw [he] at hmem2
          simp at hmem2
      · rw [if_neg he]
        have h0 : snMem { st with snap := aset st.snap room (sdel ms sid) } room
            = sdel ms sid := by
          simp [snMem, alookup_aset_self]
        rw [h0, hsn, mem_sdel]
    · rw [snapManualDel_not_mem st room sid ms hl hmem, hsn]
      constructor
      · intro hx
        exact ⟨hx, fun hh => hmem (hh ▸ hx)⟩
      · exact And.left

theorem snMem_snapManualDel_ne (st : HubState) (room sid r : String)
    (h : r ≠ room) : snMem (snapManualDel st room sid) r = snMem st r := by
  cases hl : alookup st.snap room with
  | none => rw [snapManualDel_none st room sid hl]
  | some ms =>
    by_cases hmem : sid ∈ ms
    · rw [snapManualDel_mem st room sid ms hl hmem]
      by_cases he : sdel ms sid = []
      · rw [if_pos he]
        simp [snMem, alookup_adel_ne _ h]
      · rw [if_neg he]
        simp [snMem, alookup_aset_ne _ _ h]
    · rw [snapManualDel_not_mem st room sid ms hl hmem]

theorem snapLookup_snapManualDel (st : HubState) (room sid r : String) :
    alookup (snapManualDel st room sid).snap r = alookup st.snap r ∨
      (r = room ∧ (alookup (snapManualDel st room sid).snap r = none ∨
        ∃ ms, alookup st.snap room = some ms ∧ sid ∈ ms ∧ sdel ms sid ≠ [] ∧
          alookup (snapManualDel st room sid).snap r = some (sdel ms sid))) := by
  by_cases hr : r = room
  · subst hr
    cases hl : alookup st.snap r with
    | none => rw [snapManualDel_none st r sid hl]; exact Or.inl hl
    | some ms =>
      by_cases hmem : sid ∈ ms
      · rw [snapManualDel_mem st r sid ms hl hmem]
        by_cases he : sdel ms sid = []
        · refine Or.inr ⟨rfl, Or.inl ?_⟩
          rw [if_pos he]
          simpa using alookup_adel_self st.snap r
        · refine Or.inr ⟨rfl, Or.inr ⟨ms, rfl, hmem, he, ?_⟩⟩
          rw [if_neg he]
          simpa using alookup_aset_self st.snap r (sdel ms sid)
      · rw [snapManualDel_not_mem st r sid ms hl hmem]
        exact Or.inl hl
  · left
    cases hl : alookup st.snap room with
    | none => rw [snapManualDel_none st room sid hl]
    | some ms =>
      by_cases hmem : sid ∈ ms
      · rw [snapManualDel_mem st room sid ms hl hmem]
        by_cases he : sdel ms sid = []
        · rw [if_pos he]
          simpa using alookup_adel_ne st.snap hr
        · rw [if_neg he]
          simpa using alookup_aset_ne st.snap (sdel ms sid) hr
      · rw [snapManualDel_not_mem st room sid ms hl hmem]

theorem emitRoomDelta_adapter (st : HubState) (room : String) (now : Nat) :
    (emitRoomDelta st room now).1.adapter = st.adapter := rfl

theorem emitRoomDelta_socks (st : HubState) (room : String) (now : Nat) :
    (emitRoomDelta st room now).1.socks = st.socks := rfl

theorem snMem_emitRoomDelta_self (st : HubState) (room : String) (now : Nat) :
    snMem (emitRoomDelta st room now).1 room = adMem st room := by
  unfold emitRoomDelta getRoomClientIds
  by_cases he : adMem st room = []
  · simp [he, snMem, alookup_adel_self]
  · simp [he, snMem, alookup_aset_self]

theorem snMem_emitRoomDelta_ne (st : HubState) (room r : String) (now : Nat)
    (h : r ≠ room) : snMem (emitRoomDelta st room now).1 r = snMem st r := by
  unfold emitRoomDelta getRoomClientIds
  by_cases he : adMem st room = []
  · simp [he, snMem, alookup_adel_ne _ h]
  · simp [he, snMem, alookup_aset_ne _ _ h]

theorem snapLookup_emitRoomDelta (st : HubState) (room : String) (now : Nat)
    (r : String) :
    alookup (emitRoomDelta st room now).1.snap r =
      if r = room then
        (if adMem st room = [] then none else some (adMem st room))
      else alookup st.snap r := by
  unfold emitRoomDelta getRoomClientIds
  by_cases hr : r = room
  · subst hr
    by_cases he : adMem st r = []
    · simp [he, alookup_adel_self]
    · simp [he, alookup_aset_self]
  · by_cases he : adMem st room = []
    · simp [he, hr, alookup_adel_ne _ hr]
    · simp [he, hr, alookup_aset_ne _ _ hr]

theorem emitRoomDelta_ems_of_eq (st : HubState) (room : String) (now : Nat)
    (h : snMem st room = adMem st room) :
    (emitRoomDelta st room now).2.1 = [] ∧
      (emitRoomDelta st room now).2.2 = ⟨[], []⟩ := by
  unfold emitRoomDelta getRoomClientIds
  rw [h]
  simp [filter_not_contains_self]

theorem optTruthy_some_ne (r : String) (h : r ≠ "") :
    optTruthy (some r) = true := by
  have hi : r.isEmpty = false := by
    cases hi : r.isEmpty
    · rfl
    · exact absurd ((String.isEmpty_iff r).1 hi) h
  simp [optTruthy, hi]

theorem handleChat_noRoom (st : HubState) (sid : String) (room : Option String)
    (text : JsVal) (h : optTruthy room = false) :
    handleChat st sid room text = (st, []) := by
  unfold handleChat
  rw [h]
  simp

theorem handleChat_notString (st : HubState) (sid : String) (room : Option String)
    (text : JsVal) (h : ∀ s, text ≠ .prim (.strV s)) :
    handleChat st sid room text = (st, []) := by
  unfold handleChat
  by_cases hr : optTruthy room
  · rw [hr]
    cases text with
    | objV fs => simp
    | prim p =>
      cases p with
      | strV s => exact absurd rfl (h s)
      | undef => simp
      | null => simp
      | boolV b => simp
      | numV n => simp
  · simp [hr]

theorem handleChat_ok (st : HubState) (sid r s : String) (h : r ≠ "") :
    handleChat st sid (some r) (.prim (.strV s)) =
      (st, [⟨.roomExcept r sid, .chatMsg sid (resolvedName st sid) s⟩]) := by
  unfold handleChat
  rw [optTruthy_some_ne r h]
  simp

theorem mem_recipients_roomExcept (st : HubState) (r sid x : String) :
    x ∈ recipients st (.roomExcept r sid) ↔ (x ∈ adMem st r ∧ x ≠ sid) := by
  show x ∈ (adMem st r).filter (fun y => y != sid) ↔ _
  rw [List.mem_filter]
  simp [bne_iff_ne]

theorem handleSignal_falsyData (st : HubState) (sid : String)
    (toT : Option String) (data : JsVal) (h : data.falsy = true) :
    handleSignal st sid toT data = (st, []) := by
  unfold handleSignal
  rw [h]
  simp

theorem handleSignal_target (st : HubState) (sid : String) (toT : Option String)
    (data : JsVal) (h : data.falsy = false) (ht : optTruthy toT = true) :
    handleSignal st sid toT data = (st, [⟨.room (toT.getD ""), .sig sid data⟩]) := by
  unfold handleSignal
  rw [h, ht]
  simp

theorem handleSignal_roomBroadcast (st : HubState) (sid : String)
    (toT : Option String) (data : JsVal) (h : data.falsy = false)
    (ht : optTruthy toT = false) (hr : optTruthy (dataRoom st sid) = true) :
    handleSignal st sid toT data =
      (st, [⟨.roomExcept ((dataRoom st sid).getD "") sid, .sig sid data⟩]) := by
  unfold handleSignal
  rw [h, ht, hr]
  simp

theorem handleSignal_noop (st : HubState) (sid : String) (toT : Option String)
    (data : JsVal) (h : data.falsy = false) (ht : optTruthy toT = false)
    (hr : optTruthy (dataRoom st sid) = false) :
    handleSignal st sid toT data = (st, []) := by
  unfold handleSignal
  rw [h, ht, hr]
  simp

/-- C3 (corrected): chat relays and room-broadcast signals never reach the
sender, but the claim's universal no-self-delivery fails for targeted
signals (see the counterexample): here is the part that does hold — every
`chatMessage` delivery and every delivery of a signal *without* an explicit
target excludes the sending connection. -/
theorem C3_no_self_delivery_amended (st : HubState) (sid : String)
    (room : Option String) (text : JsVal) (toT : Option String) (data : JsVal)
    (hto : optTruthy toT = false) :
    (∀ e ∈ (handleChat st sid room text).2, sid ∉ recipients st e.recip) ∧
    (∀ e ∈ (handleSignal st sid toT data).2, sid ∉ recipients st e.recip) := by
  constructor
  · intro e he
    by_cases hr : optTruthy room
    · cases text with
      | objV fs =>
        rw [handleChat_notString st sid room (.objV fs) (by intro s hn; cases hn)] at he
        simp at he
      | prim p =>
        cases p with
        | strV s =>
          cases room with
          | none => simp [optTruthy] at hr
          | some r =>
            have hne : r ≠ "" := by
              intro hh
              subst hh
              exact absurd hr (by decide)
            rw [handleChat_ok st sid r s hne] at he
            simp only [List.mem_singleton] at he
            subst he
            intro hmem
            rw [mem_recipients_roomExcept] at hmem
            exact hmem.2 rfl
        | undef =>
          rw [handleChat_notString st sid room (.prim .undef) (by intro s hn; cases hn)] at he
          simp at he
        | null =>
          rw [handleChat_notString st sid room (.prim .null) (by intro s hn; cases hn)] at he
          simp at he
        | boolV b =>
          rw [handleChat_notString st sid room (.prim (.boolV b)) (by intro s hn; cases hn)] at he
          simp at he
        | numV n =>
          rw [handleChat_notString st sid room (.prim (.numV n)) (by intro s hn; cases hn)] at he
          simp at he
    · rw [handleChat_noRoom st sid room text (by simpa using hr)] at he
      simp at he
  · intro e he
    by_cases hd : data.falsy
    · rw [handleSignal_falsyData st sid toT data hd] at he
      simp at he
    · by_cases hr : optTruthy (dataRoom st sid)
      · rw [handleSignal_roomBroadcast st sid toT data (by simpa using hd) hto hr] at he
        simp only [List.mem_singleton] at he
        subst he
        intro hmem
        rw [mem_recipients_roomExcept] at hmem
        exact hmem.2 rfl
      · rw [handleSignal_noop st sid toT data (by simpa using hd) hto
          (by simpa using hr)] at he
        simp at he

/-- C3 witness: the amended theorem applied at a concrete state and inputs. -/
theorem C3_no_self_delivery_amended_witness :
    optTruthy (none : Option String) = false ∧
    ((∀ e ∈ (handleChat initState "a" (some "r") (.prim (.strV "hi"))).2,
        "a" ∉ recipients initState e.recip) ∧
     (∀ e ∈ (handleSignal initState "a" none (.prim (.numV 1))).2,
        "a" ∉ recipients initState e.recip)) :=
  ⟨rfl, C3_no_self_delivery_amended initState "a" (some "r") (.prim (.strV "hi"))
    none (.prim (.numV 1)) rfl⟩

/-- C3 counterexample: a signal whose explicit target is the sender's own
socket id is delivered to the sender itself — `io.to(ownId)` does not
exclude the sender, falsifying "deliveries never include the sending
connection". -/
theorem C3_self_echo_cex :
    (runEmissions sigEchoTrace).getD 1 []
      = [⟨.room "a", .sig "a" (.prim (.numV 1))⟩] ∧
    "a" ∈ recipients (runState sigEchoTrace) (.room "a") := by
  decide

/-- C8 (confirmed): a `chatMessage` with a missing/empty room or a
non-string `text` is a silent no-op (no state change, zero emissions);
with a non-empty room and string text it produces exactly one broadcast to
the named room excluding the sender, tagged with the sender's id and
resolved display name, whose delivery set is every other member of the
room. -/
theorem C8_chat_validation (st : HubState) (sid : String)
    (room : Option String) (text : JsVal) :
    ((optTruthy room = false ∨ (∀ s, text ≠ .prim (.strV s))) →
      handleChat st sid room text = (st, [])) ∧
    (∀ r s, room = some r → r ≠ "" → text = .prim (.strV s) →
      handleChat st sid room text
        = (st, [⟨.roomExcept r sid, .chatMsg sid (resolvedName st sid) s⟩]) ∧
      (∀ x, x ∈ recipients st (.roomExcept r sid) ↔ (x ∈ adMem st r ∧ x ≠ sid))) := by
  constructor
  · rintro (h | h)
    · exact handleChat_noRoom st sid room text h
    · exact handleChat_notString st sid room text h
  · rintro r s rfl hne rfl
    exact ⟨handleChat_ok st sid r s hne, fun x => mem_recipients_roomExcept st r sid x⟩

/-- C8 witness: the theorem applied at concrete inputs (a malformed chat
and a well-formed one). -/
theorem C8_chat_validation_witness :
    ((optTruthy (some "r") = false ∨
        (∀ s, JsVal.prim (.numV 3) ≠ JsVal.prim (.strV s))) →
      handleChat initState "a" (some "r") (.prim (.numV 3)) = (initState, [])) ∧
    (∀ r s, (some "r" : Option String) = some r → r ≠ "" →
      JsVal.prim (.numV 3) = JsVal.prim (.strV s) →
      handleChat initState "a" (some "r") (.prim (.numV 3))
        = (initState, [⟨.roomExcept r "a",
            .chatMsg "a" (resolvedName initState "a") s⟩]) ∧
      (∀ x, x ∈ recipients initState (.roomExcept r "a") ↔
        (x ∈ adMem initState r ∧ x ≠ "a"))) :=
  C8_chat_validation initState "a" (some "r") (.prim (.numV 3))

theorem jsLength_jsSlice_le (cap : Nat) (s : String) :
    jsLength (jsSlice cap s) ≤ cap := by
  show (s.data.take cap).length ≤ cap
  rw [List.length_take]
  exact min_le_left _ _

theorem mem_metaPick (m : JsVal) (k0 k : String) (cap : Nat) (v : JsPrim)
    (h : (k, v) ∈ metaPick m k0 cap) :
    k = k0 ∧ ∃ s, jsGet m k0 = .strV s ∧ v = .strV (jsSlice cap s) := by
  unfold metaPick at h
  cases hg : jsGet m k0 with
  | strV s =>
    rw [hg] at h
    simp only [List.mem_singleton, Prod.mk.injEq] at h
    exact ⟨h.1, s, rfl, h.2⟩
  | undef => rw [hg] at h; simp at h
  | null => rw [hg] at h; simp at h
  | boolV b => rw [hg] at h; simp at h
  | numV n => rw [hg] at h; simp at h

/-- C6 (corrected): every field stored by `sanitizeMeta` is either one of
the whitelisted string fields — truncated to its per-field cap, taken from
the like-named input field of string type — or the extra `_sanitizedAt`
timestamp the function stamps on (which falsifies the claim that *only*
whitelisted fields are stored; see the counterexample).  In particular
every unrecognized input field is dropped. -/
theorem C6_sanitizeMeta_amended (m : JsVal) (now : Nat) (k : String)
    (v : JsPrim) (h : (k, v) ∈ sanitizeMeta m now) :
    (k = "_sanitizedAt" ∧ v = .numV now) ∨
    (∃ cap, (k, cap) ∈ metaCaps ∧ ∃ s, jsGet m k = .strV s ∧
      v = .strV (jsSlice cap s) ∧ jsLength (jsSlice cap s) ≤ cap) := by
  unfold sanitizeMeta at h
  by_cases hg : (m.falsy || !(m.typeof == "object")) = true
  · rw [if_pos hg] at h
    simp at h
  · rw [if_neg hg] at h
    simp only [List.append_assoc, List.mem_append, List.mem_singleton] at h
    rcases h with h | h | h | h | h | h
    · obtain ⟨rfl, s, hget, rfl⟩ := mem_metaPick m "deviceType" k 20 v h
      exact Or.inr ⟨20, by simp [metaCaps], s, hget, rfl, jsLength_jsSlice_le 20 s⟩
    · obtain ⟨rfl, s, hget, rfl⟩ := mem_metaPick m "language" k 20 v h
      exact Or.inr ⟨20, by simp [metaCaps], s, hget, rfl, jsLength_jsSlice_le 20 s⟩
    · obtain ⟨rfl, s, hget, rfl⟩ := mem_metaPick m "timezone" k 50 v h
      exact Or.inr ⟨50, by simp [metaCaps], s, hget, rfl, jsLength_jsSlice_le 50 s⟩
    · obtain ⟨rfl, s, hget, rfl⟩ := mem_metaPick m "countryGuess" k 20 v h
      exact Or.inr ⟨20, by simp [metaCaps], s, hget, rfl, jsLength_jsSlice_le 20 s⟩
    · obtain ⟨rfl, s, hget, rfl⟩ := mem_metaPick m "userAgent" k 120 v h
      exact Or.inr ⟨120, by simp [metaCaps], s, hget, rfl, jsLength_jsSlice_le 120 s⟩
    · rw [Prod.mk.injEq] at h
      exact Or.inl ⟨h.1, h.2⟩

/-- C6 witness: the amended theorem applied to a concrete metadata object
with a whitelisted field. -/
theorem C6_sanitizeMeta_amended_witness :
    (("deviceType", JsPrim.strV "tablet")
        ∈ sanitizeMeta (.objV [("deviceType", .strV "tablet")]) 5) ∧
    ((("deviceType" : String) = "_sanitizedAt" ∧ JsPrim.strV "tablet" = .numV 5) ∨
     (∃ cap, (("deviceType", cap)) ∈ metaCaps ∧
       ∃ s, jsGet (.objV [("deviceType", .strV "tablet")]) "deviceType" = .strV s ∧
         JsPrim.strV "tablet" = .strV (jsSlice cap s) ∧
         jsLength (jsSlice cap s) ≤ cap)) :=
  ⟨by decide, C6_sanitizeMeta_amended (.objV [("deviceType", .strV "tablet")]) 5
    "deviceType" (.strV "tablet") (by decide)⟩

/-- C6 counterexample: after a join carrying an empty metadata object, the
stored metadata consists of the single field `_sanitizedAt`, which is not
one of the whitelisted fields — the stored metadata does not contain *only*
whitelisted string fields. -/
theorem C6_meta_whitelist_cex :
    (rawMeta (runState metaJoinTrace) "a").map Prod.fst = ["_sanitizedAt"] ∧
    "_sanitizedAt" ∉ metaCaps.map Prod.fst := by
  decide

theorem dropWhile_shape (p : Char → Bool) (l : List Char) :
    l.dropWhile p = [] ∨ ∃ a t, l.dropWhile p = a :: t ∧ p a = false := by
  induction l with
  | nil => exact Or.inl rfl
  | cons a t ih =>
    by_cases h : p a
    · simpa [List.dropWhile_cons, h] using ih
    · exact Or.inr ⟨a, t, by simp [List.dropWhile_cons, h],
        by simpa using h⟩

theorem dropWhile_eq_self_of_head (p : Char → Bool) (a : Char) (t : List Char)
    (h : p a = false) : (a :: t).dropWhile p = a :: t := by
  simp [List.dropWhile_cons, h]

theorem trimChars_idem (l : List Char) :
    trimChars (trimChars l) = trimChars l := by
  have hpre : List.rdropWhile wsChar (l.dropWhile wsChar) <+: l.dropWhile wsChar :=
    List.rdropWhile_prefix wsChar (l.dropWhile wsChar)
  have hself : (List.rdropWhile wsChar (l.dropWhile wsChar)).dropWhile wsChar
      = List.rdropWhile wsChar (l.dropWhile wsChar) := by
    cases hr : List.rdropWhile wsChar (l.dropWhile wsChar) with
    | nil => rfl
    | cons a t =>
      apply dropWhile_eq_self_of_head
      obtain ⟨s, hs⟩ := hpre
      rw [hr] at hs
      rcases dropWhile_shape wsChar l with hsh | ⟨b, t2, heq, hpb⟩
      · rw [hsh] at hs
        simp at hs
      · rw [heq] at hs
        have hab : a = b := by
          have h2 := congrArg List.head? hs
          simpa using h2
        rw [hab]
        exact hpb
  show List.rdropWhile wsChar
      ((List.rdropWhile wsChar (l.dropWhile wsChar)).dropWhile wsChar)
    = List.rdropWhile wsChar (l.dropWhile wsChar)
  rw [hself]
  exact List.rdropWhile_idempotent wsChar (l.dropWhile wsChar)

theorem jsTrim_idem (s : String) : jsTrim (jsTrim s) = jsTrim s := by
  show String.mk (trimChars (trimChars s.data)) = String.mk (trimChars s.data)
  rw [trimChars_idem]

theorem string_mk_ne_empty (l : List Char) (h : l ≠ []) :
    String.mk l ≠ "" := by
  intro hh
  exact h (congrArg String.data hh)

theorem string_data_ne_nil (s : String) (h : s ≠ "") : s.data ≠ [] := by
  intro hh
  apply h
  have : String.mk s.data = String.mk [] := congrArg String.mk hh
  simpa using this

theorem jsSlice_ne_empty (n : Nat) (s : String) (hn : n ≠ 0) (h : s ≠ "") :
    jsSlice n s ≠ "" := by
  apply string_mk_ne_empty
  intro hh
  rcases List.take_eq_nil_iff.1 hh with h1 | h1
  · exact hn h1
  · exact string_data_ne_nil s h h1

theorem jsSlice_of_short (n : Nat) (s : String) (h : jsLength s ≤ n) :
    jsSlice n s = s := by
  show String.mk (s.data.take n) = s
  rw [List.take_of_length_le h]

theorem sanitizeName_of_trimmed (t : String) (hidem : jsTrim t = t)
    (hne : t ≠ "") : sanitizeName (.prim (.strV t)) = jsSlice 50 t := by
  have hfal : (JsVal.prim (.strV t)).falsy = false := by
    have : t.isEmpty = false := by
      cases hi : t.isEmpty
      · rfl
      · exact absurd ((String.isEmpty_iff t).1 hi) hne
    simpa [JsVal.falsy, JsPrim.falsy] using this
  have htypeof : (JsVal.prim (.strV t)).typeof = "string" := rfl
  have hcond : ((JsVal.prim (.strV t)).falsy
      || !((JsVal.prim (.strV t)).typeof == "string")) = false := by
    rw [hfal, htypeof]
    decide
  unfold sanitizeName
  rw [hcond, if_neg Bool.false_ne_true]
  show (if jsTrim t = "" then "Anonymous"
        else if 50 < jsLength (jsTrim t) then jsSlice 50 (jsTrim t)
        else jsTrim t) = jsSlice 50 t
  rw [hidem, if_neg hne]
  by_cases hlen : 50 < jsLength t
  · rw [if_pos hlen]
  · rw [if_neg hlen, jsSlice_of_short 50 t (Nat.le_of_not_lt hlen)]

theorem adMem_emitRoomDelta (st : HubState) (room : String) (now : Nat)
    (r : String) : adMem (emitRoomDelta st room now).1 r = adMem st r := by
  show (alookup (emitRoomDelta st room now).1.adapter r).getD []
      = (alookup st.adapter r).getD []
  rw [emitRoomDelta_adapter]

theorem emitRoomDelta_ems_shape (st : HubState) (room : String) (now : Nat) :
    (emitRoomDelta st room now).2.1 =
      (if (emitRoomDelta st room now).2.2.joined = []
          ∧ (emitRoomDelta st room now).2.2.left = [] then ([] : List Emission)
       else [⟨.room room, .roomDelta (emitRoomDelta st room now).2.2.joined
               (emitRoomDelta st room now).2.2.left now⟩]) := rfl

/-- C4 (corrected): the first of two back-to-back delta computations can
report a non-empty delta (see the counterexample), but the rest of the
claim holds: the second call always yields `{joined: [], left: []}` and
broadcasts nothing, an empty delta is never broadcast, and after any delta
computation the retained snapshot equals the room's current live member
set. -/
theorem C4_delta_idem_amended (st : HubState) (r : String) (n1 n2 : Nat) :
    (emitRoomDelta (emitRoomDelta st r n1).1 r n2).2.2 = ⟨[], []⟩ ∧
    (emitRoomDelta (emitRoomDelta st r n1).1 r n2).2.1 = [] ∧
    snMem (emitRoomDelta st r n1).1 r = adMem (emitRoomDelta st r n1).1 r ∧
    (∀ st2 r2 n3, (emitRoomDelta st2 r2 n3).2.2 = ⟨[], []⟩ →
      (emitRoomDelta st2 r2 n3).2.1 = []) := by
  have hsync : snMem (emitRoomDelta st r n1).1 r
      = adMem (emitRoomDelta st r n1).1 r := by
    rw [snMem_emitRoomDelta_self, adMem_emitRoomDelta]
  have h2 := emitRoomDelta_ems_of_eq (emitRoomDelta st r n1).1 r n2 hsync
  refine ⟨h2.2, h2.1, hsync, ?_⟩
  intro st2 r2 n3 hd
  rw [emitRoomDelta_ems_shape st2 r2 n3, hd]
  simp

/-- C4 witness: the amended theorem applied to the reachable state left by
`staleTrace` and room `"a"`. -/
theorem C4_delta_idem_amended_witness :
    (emitRoomDelta (emitRoomDelta (runState staleTrace) "a" 5).1 "a" 6).2.2
        = ⟨[], []⟩ ∧
    (emitRoomDelta (emitRoomDelta (runState staleTrace) "a" 5).1 "a" 6).2.1
        = [] ∧
    snMem (emitRoomDelta (runState staleTrace) "a" 5).1 "a"
        = adMem (emitRoomDelta (runState staleTrace) "a" 5).1 "a" ∧
    (∀ st2 r2 n3, (emitRoomDelta st2 r2 n3).2.2 = ⟨[], []⟩ →
      (emitRoomDelta st2 r2 n3).2.1 = []) :=
  C4_delta_idem_amended (runState staleTrace) "a" 5 6

/-- C4 counterexample: from the reachable state left by `staleTrace` the
stored snapshot of room `"a"` is stale, so the first of two successive
delta computations (with no membership change in between) reports a
non-empty `left` — falsifying "yields `{joined: [], left: []}` on both
calls". -/
theorem C4_delta_first_call_cex :
    (emitRoomDelta (runState staleTrace) "a" 5).2.2.left
      = [⟨"a", "Anonymous", []⟩] ∧
    (emitRoomDelta (runState staleTrace) "a" 5).2.2 ≠ ⟨[], []⟩ := by
  decide

theorem prevRoomCleanup_socks (st : HubState) (sid : String) (now : Nat) :
    (prevRoomCleanup st sid now).1.socks = st.socks := by
  unfold prevRoomCleanup
  cases hr : dataRoom st sid with
  | none => rfl
  | some prevRoom =>
    show (emitRoomDelta (snapManualDel (adapterLeave st sid prevRoom) prevRoom sid)
        prevRoom now).1.socks = st.socks
    rw [emitRoomDelta_socks, snapManualDel_socks, adapterLeave_socks]

theorem dataOf_prevRoomCleanup (st : HubState) (sid : String) (now : Nat)
    (x : String) : dataOf (prevRoomCleanup st sid now).1 x = dataOf st x := by
  show alookup (prevRoomCleanup st sid now).1.socks x = alookup st.socks x
  rw [prevRoomCleanup_socks]

theorem dataOf_registerJoin (st2 : HubState) (sid r : String) (now : Nat)
    (x : String) :
    dataOf (registerJoin st2 sid r now).1 x =
      if x = sid then (dataOf st2 sid).map (fun d => { d with room := some r })
      else dataOf st2 x := by
  have h1 : (registerJoin st2 sid r now).1.socks
      = (setConn (adapterJoin st2 sid r) sid
          (fun d => { d with room := some r })).socks :=
    emitRoomDelta_socks _ r now
  show alookup (registerJoin st2 sid r now).1.socks x = _
  rw [h1]
  exact dataOf_setConn (adapterJoin st2 sid r) sid
    (fun d => { d with room := some r }) x

theorem dataOf_handleJoin_proceed (st : HubState) (sid r : String)
    (clientMeta : JsVal) (now : Nat) (s : String) (d0 : ConnData)
    (hconn : dataOf st sid = some d0) (hs : jsTrim s ≠ "") (hr : r ≠ "") :
    dataOf (handleJoin st sid (some r) (.prim (.strV s)) clientMeta now).1 sid
      = some ⟨sanitizeName (.prim (.strV (jsTrim s))), some r,
              sanitizeMeta clientMeta now⟩ := by
  have htr : optTruthy (some r) = true := optTruthy_some_ne r hr
  unfold handleJoin
  rw [if_neg hs, htr]
  simp only [Bool.not_true, Bool.false_eq_true, if_false, Option.getD_some]
  have hst1 : dataOf (setConn st sid (fun d =>
      { d with name := sanitizeName (.prim (.strV (jsTrim s))),
               meta := sanitizeMeta clientMeta now })) sid
      = some { d0 with name := sanitizeName (.prim (.strV (jsTrim s))),
                       meta := sanitizeMeta clientMeta now } := by
    rw [dataOf_setConn, if_pos rfl, hconn]
    rfl
  by_cases hsame : dataRoom (setConn st sid (fun d =>
      { d with name := sanitizeName (.prim (.strV (jsTrim s))),
               meta := sanitizeMeta clientMeta now })) sid = some r
  · rw [if_pos hsame]
    have hroom0 : d0.room = some r := by
      unfold dataRoom at hsame
      rw [hst1] at hsame
      simpa using hsame
    rw [hst1, ← hroom0]
  · rw [if_neg hsame]
    rw [dataOf_registerJoin, if_pos rfl, dataOf_prevRoomCleanup, hst1]
    rfl

/-- C7 (corrected): contrary to the claim, a join whose name is missing,
non-string, or whitespace-only is *rejected* by the require-name gate (no
identity stored, no membership registered, a `require-name` advisory to
the requester only); for a name that trims non-empty, the stored display
name is the trimmed input truncated to 50 characters and is never empty.
The "Anonymous" default inside `sanitizeName` is unreachable from the join
handler. -/
theorem C7_join_identity_amended (st : HubState) (sid r : String)
    (clientMeta : JsVal) (now : Nat) (s : String) (d0 : ConnData)
    (hconn : dataOf st sid = some d0) (hs : jsTrim s ≠ "") (hr : r ≠ "") :
    (rawName (handleJoin st sid (some r) (.prim (.strV s)) clientMeta now).1 sid
        = jsSlice 50 (jsTrim s) ∧
     jsSlice 50 (jsTrim s) ≠ "") ∧
    (∀ nv : JsVal,
      (match nv with | .prim (.strV t) => jsTrim t | _ => "") = "" →
      handleJoin st sid (some r) nv clientMeta now
        = (st, [⟨.sock sid, .requireName "Name required to join the room"⟩])) := by
  refine ⟨⟨?_, jsSlice_ne_empty 50 (jsTrim s) (by decide) hs⟩, ?_⟩
  · unfold rawName
    rw [dataOf_handleJoin_proceed st sid r clientMeta now s d0 hconn hs hr]
    show sanitizeName (.prim (.strV (jsTrim s))) = jsSlice 50 (jsTrim s)
    exact sanitizeName_of_trimmed (jsTrim s) (jsTrim_idem s) hs
  · intro nv hnv
    unfold handleJoin
    rw [if_pos hnv]

/-- C7 witness: the amended theorem applied to a freshly connected socket
joining room `"r"` with the padded name `"  bob  "`. -/
theorem C7_join_identity_amended_witness :
    (dataOf (runState [Event.connect "a"]) "a"
        = some ⟨"Anonymous", none, []⟩ ∧
     jsTrim "  bob  " ≠ "" ∧ ("r" : String) ≠ "") ∧
    ((rawName (handleJoin (runState [Event.connect "a"]) "a" (some "r")
          (.prim (.strV "  bob  ")) (.prim .undef) 1).1 "a"
        = jsSlice 50 (jsTrim "  bob  ") ∧
      jsSlice 50 (jsTrim "  bob  ") ≠ "") ∧
     (∀ nv : JsVal,
       (match nv with | .prim (.strV t) => jsTrim t | _ => "") = "" →
       handleJoin (runState [Event.connect "a"]) "a" (some "r") nv
           (.prim .undef) 1
         = (runState [Event.connect "a"],
            [⟨.sock "a", .requireName "Name required to join the room"⟩]))) :=
  ⟨⟨by decide, by decide, by decide⟩,
   C7_join_identity_amended (runState [Event.connect "a"]) "a" "r"
     (.prim .undef) 1 "  bob  " ⟨"Anonymous", none, []⟩
     (by decide) (by decide) (by decide)⟩

/-- C7 counterexample: a join with an undefined name and a valid room is
answered only with a `require-name` advisory — no membership is registered
for room `"r"` and no room is stored for the socket, falsifying
"membership registration proceeds for any valid room regardless of the
name supplied" (the stored name remains the connection default rather than
being derived from the join). -/
theorem C7_requireName_cex :
    (runEmissions namelessJoinTrace).getD 1 []
      = [⟨.sock "a", .requireName "Name required to join the room"⟩] ∧
    alookup (runState namelessJoinTrace).snap "r" = none ∧
    adMem (runState namelessJoinTrace) "r" = [] ∧
    dataRoom (runState namelessJoinTrace) "a" = none := by
  decide

theorem emitRoomDelta_ems_cases (st : HubState) (room : String) (now : Nat) :
    (emitRoomDelta st room now).2.1 = [] ∨
    ∃ j l, (emitRoomDelta st room now).2.1
      = [⟨.room room, .roomDelta j l now⟩] := by
  rw [emitRoomDelta_ems_shape]
  split
  · exact Or.inl rfl
  · exact Or.inr ⟨_, _, rfl⟩

theorem rosterPaired_pair_tail (stM : HubState) (room : String) (now : Nat) :
    rosterPaired ((emitRoomMembers stM room now).1) = true := by
  simp [emitRoomMembers, rosterPaired]

theorem rosterPaired_delta_pair_tail (stD stM : HubState) (room room2 : String)
    (now : Nat) :
    rosterPaired ((emitRoomDelta stD room now).2.1
      ++ (emitRoomMembers stM room2 now).1) = true := by
  rcases emitRoomDelta_ems_cases stD room now with hD | hD
  · rw [hD]
    simp [emitRoomMembers, rosterPaired]
  · obtain ⟨j, l, hD⟩ := hD
    rw [hD]
    simp [emitRoomMembers, rosterPaired]

theorem rosterPaired_delta_pair_append (stD stM : HubState)
    (room room2 : String) (now : Nat) (rest : List Emission)
    (h : rosterPaired rest = true) :
    rosterPaired (((emitRoomDelta stD room now).2.1
      ++ (emitRoomMembers stM room2 now).1) ++ rest) = true := by
  rcases emitRoomDelta_ems_cases stD room now with hD | hD
  · rw [hD]
    simp [emitRoomMembers, rosterPaired, h]
  · obtain ⟨j, l, hD⟩ := hD
    rw [hD]
    simp [emitRoomMembers, rosterPaired, h]

/-- An emission that is not a roster (`roomMembers`) emission. -/
def nonRoster (e : Emission) : Bool :=
  match e.ev with
  | .roomMembers _ _ _ => false
  | _ => true

theorem rosterPaired_cons_nonRoster (e : Emission) (rest : List Emission)
    (he : nonRoster e = true) (h : rosterPaired rest = true) :
    rosterPaired (e :: rest) = true := by
  obtain ⟨rc, ev⟩ := e
  cases ev with
  | roomMembers ms c t => simp [nonRoster] at he
  | errorMsg m => simp [rosterPaired, h]
  | requireName m => simp [rosterPaired, h]
  | existingPeers p => simp [rosterPaired, h]
  | peerJoined m => simp [rosterPaired, h]
  | peerLeft m => simp [rosterPaired, h]
  | sig a b => simp [rosterPaired, h]
  | chatMsg a b c => simp [rosterPaired, h]
  | roomMeta c t => simp [rosterPaired, h]
  | roomDelta j l t => simp [rosterPaired, h]

theorem rosterPaired_cleanup_shape (e1 : Emission) (stD stM : HubState)
    (room room2 : String) (now : Nat) (rest : List Emission)
    (h1 : nonRoster e1 = true) (h : rosterPaired rest = true) :
    rosterPaired ((e1 :: ((emitRoomDelta stD room now).2.1
      ++ (emitRoomMembers stM room2 now).1)) ++ rest) = true := by
  rw [List.cons_append]
  exact rosterPaired_cons_nonRoster e1 _ h1
    (rosterPaired_delta_pair_append stD stM room room2 now rest h)

theorem rosterPaired_leave_shape (e1 : Emission) (stD stM : HubState)
    (room room2 : String) (now : Nat) (h1 : nonRoster e1 = true) :
    rosterPaired (e1 :: ((emitRoomDelta stD room now).2.1
      ++ (emitRoomMembers stM room2 now).1)) = true :=
  rosterPaired_cons_nonRoster e1 _ h1
    (rosterPaired_delta_pair_tail stD stM room room2 now)

theorem rosterPaired_registerJoin (st2 : HubState) (sid r : String)
    (now : Nat) : rosterPaired (registerJoin st2 sid r now).2 = true :=
  rosterPaired_cons_nonRoster _ _ rfl
    (rosterPaired_cons_nonRoster _ _ rfl
      (rosterPaired_delta_pair_tail _ _ r r now))

theorem rosterPaired_prevRoomCleanup (st : HubState) (sid : String)
    (now : Nat) (rest : List Emission) (h : rosterPaired rest = true) :
    rosterPaired ((prevRoomCleanup st sid now).2 ++ rest) = true := by
  unfold prevRoomCleanup
  cases hr : dataRoom st sid with
  | none => simpa using h
  | some prevRoom =>
    exact rosterPaired_cleanup_shape _ _ _ prevRoom prevRoom now rest rfl h

theorem rosterPaired_handleJoin (st : HubState) (sid : String)
    (room : Option String) (name clientMeta : JsVal) (now : Nat) :
    rosterPaired (handleJoin st sid room name clientMeta now).2 = true := by
  simp only [handleJoin]
  split
  · rfl
  · split
    · rfl
    · split
      · rfl
      · exact rosterPaired_prevRoomCleanup _ sid now _
          (rosterPaired_registerJoin _ sid _ now)

theorem rosterPaired_handleLeave (st : HubState) (sid : String) (now : Nat) :
    rosterPaired (handleLeave st sid now).2 = true := by
  unfold handleLeave
  cases hr : dataRoom st sid with
  | none => rfl
  | some room => exact rosterPaired_leave_shape _ _ _ room room now rfl

theorem rosterPaired_disconnectCleanup (st0 : HubState) (sid : String)
    (now : Nat) : rosterPaired (disconnectCleanup st0 sid now).2 = true := by
  unfold disconnectCleanup
  cases hr : dataRoom st0 sid with
  | none => rfl
  | some room =>
    apply rosterPaired_leave_shape _ _ _ room room now
    rfl

theorem rosterPaired_handleDisconnect (st : HubState) (sid : String)
    (now : Nat) : rosterPaired (handleDisconnect st sid now).2 = true := by
  show rosterPaired (disconnectCleanup (adapterLeaveAll st sid) sid now).2 = true
  exact rosterPaired_disconnectCleanup _ sid now

theorem rosterPaired_handleSignal (st : HubState) (sid : String)
    (toT : Option String) (data : JsVal) :
    rosterPaired (handleSignal st sid toT data).2 = true := by
  unfold handleSignal
  split
  · rfl
  · split
    · rfl
    · split
      · rfl
      · rfl

theorem rosterPaired_handleChat (st : HubState) (sid : String)
    (room : Option String) (text : JsVal) :
    rosterPaired (handleChat st sid room text).2 = true := by
  unfold handleChat
  split
  · rfl
  · split
    · rfl
    · rfl

theorem rosterPaired_step (st : HubState) (ev : Event) (now : Nat) :
    rosterPaired (step st ev now).2 = true := by
  cases ev with
  | connect sid =>
    by_cases h : sid ∈ conns st <;> simp [step, h, rosterPaired]
  | join sid room name meta =>
    by_cases h : sid ∈ conns st
    · simpa [step, h] using rosterPaired_handleJoin st sid room name meta now
    · simp [step, h, rosterPaired]
  | signal sid toT data =>
    by_cases h : sid ∈ conns st
    · simpa [step, h] using rosterPaired_handleSignal st sid toT data
    · simp [step, h, rosterPaired]
  | chat sid room text =>
    by_cases h : sid ∈ conns st
    · simpa [step, h] using rosterPaired_handleChat st sid room text
    · simp [step, h, rosterPaired]
  | leave sid =>
    by_cases h : sid ∈ conns st
    · simpa [step, h] using rosterPaired_handleLeave st sid now
    · simp [step, h, rosterPaired]
  | disconnect sid =>
    by_cases h : sid ∈ conns st
    · simpa [step, h] using rosterPaired_handleDisconnect st sid now
    · simp [step, h, rosterPaired]

theorem rosterPaired_runAux (evs : List Event) :
    ∀ (st : HubState) (n : Nat) (ems : List Emission),
      ems ∈ (runAux st evs n).2 → rosterPaired ems = true := by
  induction evs with
  | nil =>
    intro st n ems h
    simp [runAux] at h
  | cons ev rest ih =>
    intro st n ems h
    unfold runAux at h
    rcases List.mem_cons.1 h with h1 | h1
    · rw [h1]
      exact rosterPaired_step st ev n
    · exact ih _ _ ems h1

/-- C10 (confirmed): in every run, every `roomMembers` (roster) emission
goes to an entire room and is immediately followed in the same handler
call by a `roomMeta` emission to the same room carrying the same timestamp
and a `count` equal to the length of the roster's `members` array. -/
theorem C10_roomMeta_paired (evs : List Event) (ems : List Emission)
    (h : ems ∈ runEmissions evs) : rosterPaired ems = true :=
  rosterPaired_runAux evs initState 0 ems h

/-- C10 witness: the pairing checked on the concrete emissions of the
switch trace's final event. -/
theorem C10_roomMeta_paired_witness :
    ((runEmissions switchTrace).getD 4 [] ∈ runEmissions switchTrace) ∧
    rosterPaired ((runEmissions switchTrace).getD 4 []) = true :=
  ⟨by decide, C10_roomMeta_paired switchTrace _ (by decide)⟩

theorem snapAdd_adapter (st : HubState) (r sid : String) :
    (snapAdd st r sid).adapter = st.adapter := rfl

theorem snapAdd_socks (st : HubState) (r sid : String) :
    (snapAdd st r sid).socks = st.socks := rfl

theorem snMem_snapAdd_self (st : HubState) (r sid : String) :
    snMem (snapAdd st r sid) r = sadd (snMem st r) sid := by
  show (alookup (aset st.snap r (sadd (snMem st r) sid)) r).getD [] = _
  rw [alookup_aset_self]
  rfl

theorem snMem_snapAdd_ne (st : HubState) (r sid r2 : String) (h : r2 ≠ r) :
    snMem (snapAdd st r sid) r2 = snMem st r2 := by
  show (alookup (aset st.snap r (sadd (snMem st r) sid)) r2).getD [] = _
  rw [alookup_aset_ne _ _ h]
  rfl

theorem prevRoomCleanup_some (st1 : HubState) (sid A : String) (now : Nat)
    (hroom : dataRoom st1 sid = some A) :
    prevRoomCleanup st1 sid now =
      ((emitRoomDelta (snapManualDel (adapterLeave st1 sid A) A sid) A now).1,
       ⟨.roomExcept A sid,
         .peerLeft ⟨sid, rawName st1 sid, rawMeta st1 sid⟩⟩
         :: (emitRoomDelta (snapManualDel (adapterLeave st1 sid A) A sid) A now).2.1
         ++ (emitRoomMembers
              (emitRoomDelta (snapManualDel (adapterLeave st1 sid A) A sid) A now).1
              A now).1) := by
  unfold prevRoomCleanup
  rw [hroom]

theorem manualDel_sync (st1 : HubState) (sid A : String)
    (hsync : snMem st1 A = adMem st1 A) :
    snMem (snapManualDel (adapterLeave st1 sid A) A sid) A
      = adMem (snapManualDel (adapterLeave st1 sid A) A sid) A := by
  have hAd2 : adMem (snapManualDel (adapterLeave st1 sid A) A sid) A
      = sdel (adMem st1 A) sid := by
    show (alookup (snapManualDel (adapterLeave st1 sid A) A sid).adapter A).getD []
        = _
    rw [snapManualDel_adapter]
    have h := adMem_adapterLeave st1 sid A A
    rw [if_pos rfl] at h
    exact h
  rw [hAd2]
  have hsnapA : (adapterLeave st1 sid A).snap = st1.snap :=
    adapterLeave_snap st1 sid A
  have hsnA : snMem (adapterLeave st1 sid A) A = snMem st1 A := by
    show (alookup (adapterLeave st1 sid A).snap A).getD [] = _
    rw [hsnapA]
    rfl
  cases hl : alookup st1.snap A with
  | none =>
    have h1 : snapManualDel (adapterLeave st1 sid A) A sid
        = adapterLeave st1 sid A :=
      snapManualDel_none _ A sid (by rw [hsnapA]; exact hl)
    rw [h1, hsnA]
    have h2 : snMem st1 A = [] := by simp [snMem, hl]
    rw [h2, ← hsync, h2]
    rfl
  | some ms =>
    have hms : adMem st1 A = ms := by
      rw [← hsync]
      simp [snMem, hl]
    by_cases hmem : sid ∈ ms
    · have h1 := snapManualDel_mem (adapterLeave st1 sid A) A sid ms
        (by rw [hsnapA]; exact hl) hmem
      rw [h1, hms]
      by_cases he : sdel ms sid = []
      · rw [if_pos he, he]
        show (alookup (adel (adapterLeave st1 sid A).snap A) A).getD [] = []
        rw [alookup_adel_self]
        rfl
      · rw [if_neg he]
        show (alookup (aset (adapterLeave st1 sid A).snap A (sdel ms sid)) A).getD []
            = sdel ms sid
        rw [alookup_aset_self]
        rfl
    · have h1 := snapManualDel_not_mem (adapterLeave st1 sid A) A sid ms
        (by rw [hsnapA]; exact hl) hmem
      rw [h1, hsnA, hms, sdel_of_not_mem ms sid hmem]
      simp [snMem, hl]

theorem registerJoin_ems_shape (st2 : HubState) (sid r : String) (now : Nat) :
    ∃ oB pj,
      (registerJoin st2 sid r now).2
        = ⟨.sock sid, .existingPeers oB⟩
          :: ⟨.roomExcept r sid, .peerJoined pj⟩
          :: ((emitRoomDelta (snapAdd (setConn (adapterJoin st2 sid r) sid
                (fun d => { d with room := some r })) r sid) r now).2.1
            ++ (emitRoomMembers (registerJoin st2 sid r now).1 r now).1) :=
  ⟨_, _, rfl⟩

theorem registerJoin_delta_empty (st2 : HubState) (sid r : String) (now : Nat)
    (hsync : snMem st2 r = adMem st2 r) :
    (emitRoomDelta (snapAdd (setConn (adapterJoin st2 sid r) sid
        (fun d => { d with room := some r })) r sid) r now).2.1 = [] := by
  apply (emitRoomDelta_ems_of_eq _ r now ?_).1
  rw [snMem_snapAdd_self]
  have h1 : snMem (setConn (adapterJoin st2 sid r) sid
      (fun d => { d with room := some r })) r = snMem st2 r := by
    show (alookup (setConn (adapterJoin st2 sid r) sid _).snap r).getD [] = _
    rw [setConn_snap, adapterJoin_snap]
    rfl
  have h2 : adMem (snapAdd (setConn (adapterJoin st2 sid r) sid
      (fun d => { d with room := some r })) r sid) r
      = sadd (adMem st2 r) sid := by
    show (alookup (snapAdd (setConn (adapterJoin st2 sid r) sid
      (fun d => { d with room := some r })) r sid).adapter r).getD [] = _
    rw [snapAdd_adapter, setConn_adapter]
    have h := adMem_adapterJoin st2 sid r r
    rw [if_pos rfl] at h
    exact h
  rw [h1, h2, hsync]

theorem adMem_registerJoin (st2 : HubState) (sid r : String) (now : Nat)
    (r2 : String) :
    adMem (registerJoin st2 sid r now).1 r2 =
      if r2 = r then sadd (adMem st2 r) sid else adMem st2 r2 := by
  have h0 : (registerJoin st2 sid r now).1.adapter
      = (adapterJoin st2 sid r).adapter := by
    show (emitRoomDelta _ r now).1.adapter = _
    rw [emitRoomDelta_adapter, snapAdd_adapter, setConn_adapter]
  show (alookup (registerJoin st2 sid r now).1.adapter r2).getD [] = _
  rw [h0]
  exact adMem_adapterJoin st2 sid r r2

theorem snMem_registerJoin_self (st2 : HubState) (sid r : String) (now : Nat) :
    snMem (registerJoin st2 sid r now).1 r = sadd (adMem st2 r) sid := by
  show snMem (emitRoomDelta (snapAdd (setConn (adapterJoin st2 sid r) sid
      (fun d => { d with room := some r })) r sid) r now).1 r = _
  rw [snMem_emitRoomDelta_self]
  show (alookup (snapAdd (setConn (adapterJoin st2 sid r) sid
      (fun d => { d with room := some r })) r sid).adapter r).getD [] = _
  rw [snapAdd_adapter, setConn_adapter]
  have h := adMem_adapterJoin st2 sid r r
  rw [if_pos rfl] at h
  exact h

theorem snMem_registerJoin_ne (st2 : HubState) (sid r : String) (now : Nat)
    (r2 : String) (h : r2 ≠ r) :
    snMem (registerJoin st2 sid r now).1 r2 = snMem st2 r2 := by
  show snMem (emitRoomDelta (snapAdd (setConn (adapterJoin st2 sid r) sid
      (fun d => { d with room := some r })) r sid) r now).1 r2 = _
  rw [snMem_emitRoomDelta_ne _ _ _ _ h, snMem_snapAdd_ne _ _ _ _ h]
  show (alookup (setConn (adapterJoin st2 sid r) sid _).snap r2).getD [] = _
  rw [setConn_snap, adapterJoin_snap]
  rfl

theorem adMem_snapManualDel (st : HubState) (room sid r : String) :
    adMem (snapManualDel st room sid) r = adMem st r := by
  show (alookup (snapManualDel st room sid).adapter r).getD [] = _
  rw [snapManualDel_adapter]
  rfl

theorem adMem_setConn (st : HubState) (sid : String) (f : ConnData → ConnData)
    (r : String) : adMem (setConn st sid f) r = adMem st r := by
  show (alookup (setConn st sid f).adapter r).getD [] = _
  rw [setConn_adapter]
  rfl

theorem snMem_setConn (st : HubState) (sid : String) (f : ConnData → ConnData)
    (r : String) : snMem (setConn st sid f) r = snMem st r := by
  show (alookup (setConn st sid f).snap r).getD [] = _
  rw [setConn_snap]
  rfl

theorem snMem_adapterLeave (st : HubState) (sid r r2 : String) :
    snMem (adapterLeave st sid r) r2 = snMem st r2 := by
  show (alookup (adapterLeave st sid r).snap r2).getD [] = _
  rw [adapterLeave_snap]
  rfl

/-- C2 (corrected): provided the stored member snapshots of rooms A and B
agree with their live adapter membership when the switch arrives, the hub
runs the full old-room leave sequence first — `peer-left` to A's other
members, removal from A's membership, A's delta computation and A's
roster — strictly before any emission or registration for room B, and the
delta computed for A is empty (its membership was already removed
manually): contrary to the claim no `roomDelta` is emitted for A (nor for
B), the emission sequence being exactly peer-left(A), roster(A),
existingPeers, peer-joined(B), roster(B).  The proviso is needed: from a
reachable state whose stored snapshot of A is stale (obtainable through a
room-name/socket-id collision) the same switch does broadcast a
`roomDelta` for A, so the no-delta behavior holds exactly under snapshot
agreement. -/
theorem C2_room_switch_amended (st : HubState) (sid A B s : String)
    (clientMeta : JsVal) (now : Nat) (d0 : ConnData)
    (hconn : dataOf st sid = some d0) (hprev : d0.room = some A) (hAB : A ≠ B)
    (hs : jsTrim s ≠ "") (hB : B ≠ "")
    (hsyncA : snMem st A = adMem st A) (hsyncB : snMem st B = adMem st B) :
    (∃ pl mA oB pj mB,
      (handleJoin st sid (some B) (.prim (.strV s)) clientMeta now).2
        = ⟨.roomExcept A sid, .peerLeft pl⟩
          :: ⟨.room A, .roomMembers mA mA.length now⟩
          :: ⟨.room A, .roomMeta mA.length now⟩
          :: ⟨.sock sid, .existingPeers oB⟩
          :: ⟨.roomExcept B sid, .peerJoined pj⟩
          :: ⟨.room B, .roomMembers mB mB.length now⟩
          :: [⟨.room B, .roomMeta mB.length now⟩]) ∧
    (∀ e ∈ (handleJoin st sid (some B) (.prim (.strV s)) clientMeta now).2, isRoomDelta e.ev = false) ∧
    dataRoom (handleJoin st sid (some B) (.prim (.strV s)) clientMeta now).1 sid = some B ∧
    sid ∉ snMem (handleJoin st sid (some B) (.prim (.strV s)) clientMeta now).1 A ∧
    sid ∈ snMem (handleJoin st sid (some B) (.prim (.strV s)) clientMeta now).1 B := by
  have hBt : optTruthy (some B) = true := optTruthy_some_ne B hB
  have hd1 : dataOf (setConn st sid (fun d => { d with name := sanitizeName (.prim (.strV (jsTrim s))), meta := sanitizeMeta clientMeta now })) sid
      = some { d0 with
          name := sanitizeName (.prim (.strV (jsTrim s))),
          meta := sanitizeMeta clientMeta now } := by
    rw [dataOf_setConn, if_pos rfl, hconn]
    rfl
  have hroom1 : dataRoom (setConn st sid (fun d => { d with name := sanitizeName (.prim (.strV (jsTrim s))), meta := sanitizeMeta clientMeta now })) sid = some A := by
    unfold dataRoom
    rw [hd1]
    simpa using hprev
  have hne : ¬ dataRoom (setConn st sid (fun d => { d with name := sanitizeName (.prim (.strV (jsTrim s))), meta := sanitizeMeta clientMeta now })) sid = some B := by
    rw [hroom1]
    intro hh
    exact hAB (by injection hh)
  have hexp : (handleJoin st sid (some B) (.prim (.strV s)) clientMeta now)
      = ((registerJoin (prevRoomCleanup (setConn st sid (fun d => { d with name := sanitizeName (.prim (.strV (jsTrim s))), meta := sanitizeMeta clientMeta now })) sid now).1 sid B now).1,
         (prevRoomCleanup (setConn st sid (fun d => { d with name := sanitizeName (.prim (.strV (jsTrim s))), meta := sanitizeMeta clientMeta now })) sid now).2
           ++ (registerJoin (prevRoomCleanup (setConn st sid (fun d => { d with name := sanitizeName (.prim (.strV (jsTrim s))), meta := sanitizeMeta clientMeta now })) sid now).1 sid B now).2) := by
    simp only [handleJoin]
    rw [if_neg hs, hBt]
    simp only [Bool.not_true, Bool.false_eq_true, if_false, Option.getD_some]
    rw [if_neg hne]
  -- old-room sync at st1
  have hsnA1 : snMem (setConn st sid (fun d => { d with name := sanitizeName (.prim (.strV (jsTrim s))), meta := sanitizeMeta clientMeta now })) A = adMem (setConn st sid (fun d => { d with name := sanitizeName (.prim (.strV (jsTrim s))), meta := sanitizeMeta clientMeta now })) A := by
    show (alookup (setConn st sid _).snap A).getD []
        = (alookup (setConn st sid _).adapter A).getD []
    rw [setConn_snap, setConn_adapter]
    exact hsyncA
  -- the A-side delta is empty
  have hDA : (emitRoomDelta (snapManualDel (adapterLeave (setConn st sid (fun d => { d with name := sanitizeName (.prim (.strV (jsTrim s))), meta := sanitizeMeta clientMeta now })) sid A) A sid) A now).2.1 = [] :=
    (emitRoomDelta_ems_of_eq _ A now (manualDel_sync (setConn st sid (fun d => { d with name := sanitizeName (.prim (.strV (jsTrim s))), meta := sanitizeMeta clientMeta now })) sid A hsnA1)).1
  have hclean := prevRoomCleanup_some (setConn st sid (fun d => { d with name := sanitizeName (.prim (.strV (jsTrim s))), meta := sanitizeMeta clientMeta now })) sid A now hroom1
  -- membership of the cleaned state
  have hadC_A : adMem (prevRoomCleanup (setConn st sid (fun d => { d with name := sanitizeName (.prim (.strV (jsTrim s))), meta := sanitizeMeta clientMeta now })) sid now).1 A = sdel (adMem st A) sid := by
    rw [hclean]
    show adMem (emitRoomDelta (snapManualDel (adapterLeave (setConn st sid (fun d => { d with name := sanitizeName (.prim (.strV (jsTrim s))), meta := sanitizeMeta clientMeta now })) sid A) A sid) A now).1 A = _
    rw [adMem_emitRoomDelta, adMem_snapManualDel]
    have h := adMem_adapterLeave (setConn st sid (fun d => { d with name := sanitizeName (.prim (.strV (jsTrim s))), meta := sanitizeMeta clientMeta now })) sid A A
    rw [if_pos rfl] at h
    rw [h, adMem_setConn]
  have hsnC_A : snMem (prevRoomCleanup (setConn st sid (fun d => { d with name := sanitizeName (.prim (.strV (jsTrim s))), meta := sanitizeMeta clientMeta now })) sid now).1 A = sdel (adMem st A) sid := by
    rw [hclean]
    show snMem (emitRoomDelta (snapManualDel (adapterLeave (setConn st sid (fun d => { d with name := sanitizeName (.prim (.strV (jsTrim s))), meta := sanitizeMeta clientMeta now })) sid A) A sid) A now).1 A = _
    rw [snMem_emitRoomDelta_self, adMem_snapManualDel]
    have h := adMem_adapterLeave (setConn st sid (fun d => { d with name := sanitizeName (.prim (.strV (jsTrim s))), meta := sanitizeMeta clientMeta now })) sid A A
    rw [if_pos rfl] at h
    rw [h, adMem_setConn]
  have hadC_B : adMem (prevRoomCleanup (setConn st sid (fun d => { d with name := sanitizeName (.prim (.strV (jsTrim s))), meta := sanitizeMeta clientMeta now })) sid now).1 B = adMem st B := by
    rw [hclean]
    show adMem (emitRoomDelta (snapManualDel (adapterLeave (setConn st sid (fun d => { d with name := sanitizeName (.prim (.strV (jsTrim s))), meta := sanitizeMeta clientMeta now })) sid A) A sid) A now).1 B = _
    rw [adMem_emitRoomDelta, adMem_snapManualDel]
    have h := adMem_adapterLeave (setConn st sid (fun d => { d with name := sanitizeName (.prim (.strV (jsTrim s))), meta := sanitizeMeta clientMeta now })) sid A B
    rw [if_neg (Ne.symm hAB)] at h
    rw [h, adMem_setConn]
  have hsnC_B : snMem (prevRoomCleanup (setConn st sid (fun d => { d with name := sanitizeName (.prim (.strV (jsTrim s))), meta := sanitizeMeta clientMeta now })) sid now).1 B = snMem st B := by
    rw [hclean]
    show snMem (emitRoomDelta (snapManualDel (adapterLeave (setConn st sid (fun d => { d with name := sanitizeName (.prim (.strV (jsTrim s))), meta := sanitizeMeta clientMeta now })) sid A) A sid) A now).1 B = _
    rw [snMem_emitRoomDelta_ne _ _ _ _ (Ne.symm hAB),
        snMem_snapManualDel_ne _ _ _ _ (Ne.symm hAB), snMem_adapterLeave,
        snMem_setConn]
  have hsyncC_B : snMem (prevRoomCleanup (setConn st sid (fun d => { d with name := sanitizeName (.prim (.strV (jsTrim s))), meta := sanitizeMeta clientMeta now })) sid now).1 B = adMem (prevRoomCleanup (setConn st sid (fun d => { d with name := sanitizeName (.prim (.strV (jsTrim s))), meta := sanitizeMeta clientMeta now })) sid now).1 B := by
    rw [hsnC_B, hadC_B]
    exact hsyncB
  have hDB : (emitRoomDelta (snapAdd (setConn (adapterJoin (prevRoomCleanup (setConn st sid (fun d => { d with name := sanitizeName (.prim (.strV (jsTrim s))), meta := sanitizeMeta clientMeta now })) sid now).1 sid B) sid
      (fun d => { d with room := some B })) B sid) B now).2.1 = [] :=
    registerJoin_delta_empty (prevRoomCleanup (setConn st sid (fun d => { d with name := sanitizeName (.prim (.strV (jsTrim s))), meta := sanitizeMeta clientMeta now })) sid now).1 sid B now hsyncC_B
  obtain ⟨oB, pj, hreg⟩ := registerJoin_ems_shape (prevRoomCleanup (setConn st sid (fun d => { d with name := sanitizeName (.prim (.strV (jsTrim s))), meta := sanitizeMeta clientMeta now })) sid now).1 sid B now
  have hstC : (prevRoomCleanup (setConn st sid (fun d => { d with name := sanitizeName (.prim (.strV (jsTrim s))), meta := sanitizeMeta clientMeta now })) sid now).1 = (emitRoomDelta (snapManualDel (adapterLeave (setConn st sid (fun d => { d with name := sanitizeName (.prim (.strV (jsTrim s))), meta := sanitizeMeta clientMeta now })) sid A) A sid) A now).1 := congrArg Prod.fst hclean
  have hcleanEms : (prevRoomCleanup (setConn st sid (fun d => { d with name := sanitizeName (.prim (.strV (jsTrim s))), meta := sanitizeMeta clientMeta now })) sid now).2
      = ⟨.roomExcept A sid, .peerLeft ⟨sid, rawName (setConn st sid (fun d => { d with name := sanitizeName (.prim (.strV (jsTrim s))), meta := sanitizeMeta clientMeta now })) sid, rawMeta (setConn st sid (fun d => { d with name := sanitizeName (.prim (.strV (jsTrim s))), meta := sanitizeMeta clientMeta now })) sid⟩⟩
        :: (emitRoomMembers (prevRoomCleanup (setConn st sid (fun d => { d with name := sanitizeName (.prim (.strV (jsTrim s))), meta := sanitizeMeta clientMeta now })) sid now).1 A now).1 := by
    conv =>
      rhs
      rw [hstC]
    rw [hclean, hDA]
    simp
  refine ⟨⟨⟨sid, rawName (setConn st sid (fun d => { d with name := sanitizeName (.prim (.strV (jsTrim s))), meta := sanitizeMeta clientMeta now })) sid, rawMeta (setConn st sid (fun d => { d with name := sanitizeName (.prim (.strV (jsTrim s))), meta := sanitizeMeta clientMeta now })) sid⟩,
    getRoomMembersWithMeta (prevRoomCleanup (setConn st sid (fun d => { d with name := sanitizeName (.prim (.strV (jsTrim s))), meta := sanitizeMeta clientMeta now })) sid now).1 A, oB, pj,
    getRoomMembersWithMeta (registerJoin (prevRoomCleanup (setConn st sid (fun d => { d with name := sanitizeName (.prim (.strV (jsTrim s))), meta := sanitizeMeta clientMeta now })) sid now).1 sid B now).1 B, ?_⟩,
    ?_, ?_, ?_, ?_⟩
  · rw [hexp]
    show (prevRoomCleanup (setConn st sid (fun d => { d with name := sanitizeName (.prim (.strV (jsTrim s))), meta := sanitizeMeta clientMeta now })) sid now).2 ++ (registerJoin (prevRoomCleanup (setConn st sid (fun d => { d with name := sanitizeName (.prim (.strV (jsTrim s))), meta := sanitizeMeta clientMeta now })) sid now).1 sid B now).2 = _
    rw [hcleanEms, hreg, hDB]
    simp only [emitRoomMembers, List.nil_append, List.cons_append,
      List.append_nil]
  · intro e he
    rw [hexp] at he
    replace he : e ∈ (prevRoomCleanup (setConn st sid (fun d => { d with name := sanitizeName (.prim (.strV (jsTrim s))), meta := sanitizeMeta clientMeta now })) sid now).2
        ++ (registerJoin (prevRoomCleanup (setConn st sid (fun d => { d with name := sanitizeName (.prim (.strV (jsTrim s))), meta := sanitizeMeta clientMeta now })) sid now).1 sid B now).2 := he
    rcases List.mem_append.1 he with h1 | h1
    · rw [hcleanEms] at h1
      simp only [emitRoomMembers, List.mem_cons, List.not_mem_nil,
        or_false] at h1
      rcases h1 with rfl | rfl | rfl
      · rfl
      · rfl
      · rfl
    · rw [hreg, hDB] at h1
      simp only [emitRoomMembers, List.nil_append, List.mem_cons,
        List.not_mem_nil, or_false] at h1
      rcases h1 with rfl | rfl | rfl | rfl
      · rfl
      · rfl
      · rfl
      · rfl
  · rw [hexp]
    have hdata := dataOf_registerJoin (prevRoomCleanup (setConn st sid (fun d => { d with name := sanitizeName (.prim (.strV (jsTrim s))), meta := sanitizeMeta clientMeta now })) sid now).1 sid B now sid
    rw [if_pos rfl] at hdata
    show (dataOf (registerJoin (prevRoomCleanup (setConn st sid (fun d => { d with name := sanitizeName (.prim (.strV (jsTrim s))), meta := sanitizeMeta clientMeta now })) sid now).1 sid B now).1 sid).bind ConnData.room = some B
    rw [hdata, dataOf_prevRoomCleanup, hd1]
    rfl
  · rw [hexp]
    show sid ∉ snMem (registerJoin (prevRoomCleanup (setConn st sid (fun d => { d with name := sanitizeName (.prim (.strV (jsTrim s))), meta := sanitizeMeta clientMeta now })) sid now).1 sid B now).1 A
    rw [snMem_registerJoin_ne _ _ _ _ A hAB, hsnC_A]
    intro hmem
    exact ((mem_sdel _ _ _).1 hmem).2 rfl
  · rw [hexp]
    show sid ∈ snMem (registerJoin (prevRoomCleanup (setConn st sid (fun d => { d with name := sanitizeName (.prim (.strV (jsTrim s))), meta := sanitizeMeta clientMeta now })) sid now).1 sid B now).1 B
    rw [snMem_registerJoin_self]
    exact (mem_sadd _ _ _).2 (Or.inr rfl)

/-- C2 witness: the amended theorem applied to the concrete state where
"a" and "b" share room R1 and "a" switches to R2. -/
theorem C2_room_switch_amended_witness :
    (dataOf (runState (switchTrace.take 4)) "a" = some ⟨"alice", some "R1", []⟩ ∧
     (ConnData.room ⟨"alice", some "R1", []⟩ = some "R1") ∧
     ("R1" : String) ≠ "R2" ∧
     jsTrim "alice" ≠ "" ∧ ("R2" : String) ≠ "" ∧
     snMem (runState (switchTrace.take 4)) "R1" = adMem (runState (switchTrace.take 4)) "R1" ∧
     snMem (runState (switchTrace.take 4)) "R2" = adMem (runState (switchTrace.take 4)) "R2") ∧
    ((∃ pl mA oB pj mB,
      (handleJoin (runState (switchTrace.take 4)) "a" (some "R2") (.prim (.strV "alice")) (.prim .undef) 4).2
        = ⟨.roomExcept "R1" "a", .peerLeft pl⟩
          :: ⟨.room "R1", .roomMembers mA mA.length 4⟩
          :: ⟨.room "R1", .roomMeta mA.length 4⟩
          :: ⟨.sock "a", .existingPeers oB⟩
          :: ⟨.roomExcept "R2" "a", .peerJoined pj⟩
          :: ⟨.room "R2", .roomMembers mB mB.length 4⟩
          :: [⟨.room "R2", .roomMeta mB.length 4⟩]) ∧
    (∀ e ∈ (handleJoin (runState (switchTrace.take 4)) "a" (some "R2") (.prim (.strV "alice")) (.prim .undef) 4).2, isRoomDelta e.ev = false) ∧
    dataRoom (handleJoin (runState (switchTrace.take 4)) "a" (some "R2") (.prim (.strV "alice")) (.prim .undef) 4).1 "a" = some "R2" ∧
    "a" ∉ snMem (handleJoin (runState (switchTrace.take 4)) "a" (some "R2") (.prim (.strV "alice")) (.prim .undef) 4).1 "R1" ∧
    "a" ∈ snMem (handleJoin (runState (switchTrace.take 4)) "a" (some "R2") (.prim (.strV "alice")) (.prim .undef) 4).1 "R2") :=
  ⟨⟨by decide, by decide, by decide, by decide, by decide, by decide,
    by decide⟩,
   C2_room_switch_amended (runState (switchTrace.take 4)) "a" "R1" "R2" "alice" (.prim .undef) 4
     ⟨"alice", some "R1", []⟩ (by decide) (by decide) (by decide)
     (by decide) (by decide) (by decide) (by decide)⟩

/-- C2 counterexample: in the concrete room switch of `switchTrace`, the
switching connection "a" is joined to R1, and the switch event's emissions
do contain a `peer-left` notification, yet contain no `roomDelta` emission
at all — the hub never "emits A's delta" on a room switch, because the
membership was already removed from the snapshot before the delta was
computed. -/
theorem C2_no_delta_cex :
    dataRoom (runState (switchTrace.take 4)) "a" = some "R1" ∧
    (((runEmissions switchTrace).getD 4 []).any
        (fun e => isPeerLeft e.ev)) = true ∧
    (((runEmissions switchTrace).getD 4 []).all
        (fun e => !isRoomDelta e.ev)) = true := by
  decide

theorem conns_eq_of_socks {st st' : HubState} (h : st'.socks = st.socks) :
    conns st' = conns st := by
  unfold conns
  rw [h]

theorem dataOf_eq_of_socks {st st' : HubState} (h : st'.socks = st.socks)
    (x : String) : dataOf st' x = dataOf st x := by
  unfold dataOf
  rw [h]

theorem alookup_isSome_of_mem_keys {α : Type} {l : List (String × α)}
    {k : String} (h : k ∈ l.map Prod.fst) : (alookup l k).isSome := by
  induction l with
  | nil => simp at h
  | cons kv rest ih =>
    obtain ⟨a, b⟩ := kv
    by_cases ha : a = k
    · simp [alookup, ha]
    · simp only [List.map_cons, List.mem_cons] at h
      rcases h with h | h
      · exact absurd h.symm ha
      · simpa [alookup, ha] using ih h

theorem mem_conns_dataOf {st : HubState} {x : String} (h : x ∈ conns st) :
    ∃ d, dataOf st x = some d := by
  have h2 := alookup_isSome_of_mem_keys (l := st.socks) (k := x) h
  cases hh : alookup st.socks x with
  | none => rw [hh] at h2; simp at h2
  | some d => exact ⟨d, hh⟩

theorem alookup_filter_ne {α : Type} (l : List (String × α)) (k x : String) :
    alookup (l.filter (fun kv => kv.1 != k)) x =
      if x = k then none else alookup l x := by
  induction l with
  | nil => simp [alookup]
  | cons kv rest ih =>
    obtain ⟨a, b⟩ := kv
    by_cases ha : a = k
    · have hb : (a != k) = false := by simp [bne_iff_ne, ha]
      rw [List.filter_cons, hb]
      simp only [Bool.false_eq_true, if_false]
      rw [ih]
      by_cases hx : x = k
      · simp [hx]
      · have hax : ¬ a = x := by
          rw [ha]
          exact fun hh => hx hh.symm
        simp [hx, alookup, hax]
    · have hb : (a != k) = true := bne_iff_ne.2 ha
      rw [List.filter_cons, hb]
      simp only [if_true]
      show (if a = x then some b else alookup (rest.filter (fun kv => kv.1 != k)) x)
          = if x = k then none else alookup ((a, b) :: rest) x
      by_cases hx : x = a
      · subst hx
        simp [alookup, ha]
      · have hax : ¬ a = x := fun hh => hx hh.symm
        rw [if_neg hax, ih]
        by_cases hxk : x = k
        · simp [hxk]
        · simp [hxk, alookup, hax]

theorem mem_keys_filter_ne {α : Type} (l : List (String × α)) (k x : String) :
    x ∈ (l.filter (fun kv => kv.1 != k)).map Prod.fst ↔
      (x ∈ l.map Prod.fst ∧ x ≠ k) := by
  simp only [List.mem_map, List.mem_filter, bne_iff_ne]
  constructor
  · rintro ⟨kv, ⟨hmem, hne⟩, rfl⟩
    exact ⟨⟨kv, hmem, rfl⟩, hne⟩
  · rintro ⟨⟨kv, hmem, rfl⟩, hne⟩
    exact ⟨kv, ⟨hmem, hne⟩, rfl⟩

theorem list_eq_nil_of_no_mem {l : List String} (h : ∀ x, x ∉ l) : l = [] := by
  cases l with
  | nil => rfl
  | cons a t => exact absurd (List.mem_cons_self a t) (h a)

theorem inv_init (Rset Iset : String → Prop) : Inv Rset Iset initState := by
  constructor
  · intro x hx
    simp [conns, initState] at hx
  · intro x r h
    simp [dataRoom, dataOf, initState, alookup] at h
  · intro i _ x
    simp [adMem, initState, alookup, conns]
  · intro r _ x
    simp [adMem, initState, alookup, dataRoom, dataOf]
  · intro r _ x
    simp [adMem, snMem, initState, alookup]
  · intro r ms h
    simp [initState, alookup] at h
  · simp [initState]

theorem inv_setConn_roomPreserving (Rset Iset : String → Prop)
    (st : HubState) (sid : String) (f : ConnData → ConnData)
    (hf : ∀ d, (f d).room = d.room) (inv : Inv Rset Iset st) :
    Inv Rset Iset (setConn st sid f) := by
  have hconns := conns_setConn st sid f
  have hroom : ∀ x, dataRoom (setConn st sid f) x = dataRoom st x := by
    intro x
    unfold dataRoom
    rw [dataOf_setConn]
    by_cases hx : x = sid
    · rw [if_pos hx, hx]
      cases hd : dataOf st sid with
      | none => rfl
      | some d => simp [hf d]
    · rw [if_neg hx]
  constructor
  · intro x hx
    rw [hconns] at hx
    exact inv.connsI x hx
  · intro x r h
    rw [hroom x] at h
    exact inv.roomsR x r h
  · intro i hI x
    rw [adMem_setConn, hconns]
    exact inv.ownRooms i hI x
  · intro r hR x
    rw [adMem_setConn, hroom x]
    exact inv.dataAd r hR x
  · intro r hR x
    rw [adMem_setConn, snMem_setConn]
    exact inv.snapAd r hR x
  · intro r ms h
    rw [setConn_snap] at h
    exact inv.snapEntries r ms h
  · rw [setConn_adapter]
    exact inv.adKeysNodup

theorem handleLeave_some (st : HubState) (sid room : String) (now : Nat)
    (hr : dataRoom st sid = some room) :
    handleLeave st sid now =
      ((emitRoomDelta (snapManualDel (setConn (adapterLeave st sid room) sid
          (fun d => { d with room := none })) room sid) room now).1,
       ⟨.roomExcept room sid,
          .peerLeft ⟨sid, resolvedName st sid, rawMeta st sid⟩⟩
         :: (emitRoomDelta (snapManualDel (setConn (adapterLeave st sid room) sid
              (fun d => { d with room := none })) room sid) room now).2.1
         ++ (emitRoomMembers
              (emitRoomDelta (snapManualDel (setConn (adapterLeave st sid room) sid
                (fun d => { d with room := none })) room sid) room now).1
              room now).1) := by
  unfold handleLeave
  rw [hr]

theorem nodup_adapterLeave (st : HubState) (sid r : String)
    (h : (st.adapter.map Prod.fst).Nodup) :
    ((adapterLeave st sid r).adapter.map Prod.fst).Nodup := by
  have hd : (adapterLeave st sid r).adapter
      = if sdel (adMem st r) sid = [] then adel st.adapter r
        else aset st.adapter r (sdel (adMem st r) sid) := rfl
  rw [hd]
  split
  · exact nodupKeys_adel st.adapter r h
  · exact nodupKeys_aset st.adapter r _ h

theorem inv_preserve_leave (Rset Iset : String → Prop)
    (disj : ∀ x, Rset x → Iset x → False)
    (st : HubState) (sid : String) (now : Nat) (inv : Inv Rset Iset st) :
    Inv Rset Iset (handleLeave st sid now).1 := by
  cases hr : dataRoom st sid with
  | none =>
    have h : handleLeave st sid now = (st, []) := by
      unfold handleLeave
      rw [hr]
    rw [h]
    exact inv
  | some room =>
    have hR : Rset room := inv.roomsR sid room hr
    have heq := handleLeave_some st sid room now hr
    have hE : (handleLeave st sid now).1 = (emitRoomDelta (snapManualDel (setConn (adapterLeave st sid room) sid (fun d => { d with room := none })) room sid) room now).1 := congrArg Prod.fst heq
    rw [hE]
    have hsocks1 : (emitRoomDelta (snapManualDel (setConn (adapterLeave st sid room) sid (fun d => { d with room := none })) room sid) room now).1.socks = (setConn (adapterLeave st sid room) sid (fun d => { d with room := none })).socks := by
      rw [emitRoomDelta_socks, snapManualDel_socks]
    have hconns : conns (emitRoomDelta (snapManualDel (setConn (adapterLeave st sid room) sid (fun d => { d with room := none })) room sid) room now).1 = conns st := by
      rw [conns_eq_of_socks hsocks1, conns_setConn,
        conns_eq_of_socks (adapterLeave_socks st sid room)]
    have hdata : ∀ x, dataOf (emitRoomDelta (snapManualDel (setConn (adapterLeave st sid room) sid (fun d => { d with room := none })) room sid) room now).1 x =
        if x = sid then (dataOf st sid).map (fun d => { d with room := none })
        else dataOf st x := by
      intro x
      rw [dataOf_eq_of_socks hsocks1, dataOf_setConn,
        dataOf_eq_of_socks (adapterLeave_socks st sid room),
        dataOf_eq_of_socks (adapterLeave_socks st sid room)]
    have hroomE : ∀ x, dataRoom (emitRoomDelta (snapManualDel (setConn (adapterLeave st sid room) sid (fun d => { d with room := none })) room sid) room now).1 x =
        if x = sid then none else dataRoom st x := by
      intro x
      unfold dataRoom
      rw [hdata x]
      by_cases hx : x = sid
      · rw [if_pos hx, if_pos hx]
        cases hd : dataOf st sid with
        | none => rfl
        | some d => rfl
      · rw [if_neg hx, if_neg hx]
    have hadE : ∀ r2, adMem (emitRoomDelta (snapManualDel (setConn (adapterLeave st sid room) sid (fun d => { d with room := none })) room sid) room now).1 r2 =
        if r2 = room then sdel (adMem st room) sid else adMem st r2 := by
      intro r2
      rw [adMem_emitRoomDelta, adMem_snapManualDel, adMem_setConn,
        adMem_adapterLeave]
    have hsnE_room : snMem (emitRoomDelta (snapManualDel (setConn (adapterLeave st sid room) sid (fun d => { d with room := none })) room sid) room now).1 room = sdel (adMem st room) sid := by
      rw [snMem_emitRoomDelta_self, adMem_snapManualDel, adMem_setConn]
      have h := adMem_adapterLeave st sid room room
      rw [if_pos rfl] at h
      exact h
    have hsnE_ne : ∀ r2, r2 ≠ room → snMem (emitRoomDelta (snapManualDel (setConn (adapterLeave st sid room) sid (fun d => { d with room := none })) room sid) room now).1 r2 = snMem st r2 := by
      intro r2 h2
      rw [snMem_emitRoomDelta_ne _ _ _ _ h2,
        snMem_snapManualDel_ne _ _ _ _ h2, snMem_setConn, snMem_adapterLeave]
    have hlook : ∀ r2 ms, alookup (emitRoomDelta (snapManualDel (setConn (adapterLeave st sid room) sid (fun d => { d with room := none })) room sid) room now).1.snap r2 = some ms →
        (r2 = room ∧ ms = sdel (adMem st room) sid ∧ ms ≠ []) ∨
        (r2 ≠ room ∧ alookup st.snap r2 = some ms) := by
      intro r2 ms h
      rw [snapLookup_emitRoomDelta] at h
      by_cases h2 : r2 = room
      · rw [if_pos h2] at h
        by_cases he : adMem (snapManualDel (setConn (adapterLeave st sid room) sid (fun d => { d with room := none })) room sid) room = []
        · rw [if_pos he] at h
          cases h
        · rw [if_neg he] at h
          injection h with h
          left
          refine ⟨h2, ?_, ?_⟩
          · rw [← h, adMem_snapManualDel, adMem_setConn]
            have hh := adMem_adapterLeave st sid room room
            rw [if_pos rfl] at hh
            exact hh
          · intro hnil
            rw [hnil] at h
            apply he
            rw [← h]
      · rw [if_neg h2] at h
        right
        refine ⟨h2, ?_⟩
        rcases snapLookup_snapManualDel (setConn (adapterLeave st sid room) sid (fun d => { d with room := none })) room sid r2 with h3 | ⟨h4, _⟩
        · rw [h3] at h
          rw [setConn_snap, adapterLeave_snap] at h
          exact h
        · exact absurd h4 h2
    constructor
    · intro x hx
      rw [hconns] at hx
      exact inv.connsI x hx
    · intro x r h
      rw [hroomE x] at h
      by_cases hx : x = sid
      · rw [if_pos hx] at h
        cases h
      · rw [if_neg hx] at h
        exact inv.roomsR x r h
    · intro i hI x
      have hiR : i ≠ room := fun hh => disj i (hh ▸ hR) hI
      rw [hadE i, if_neg hiR, hconns]
      exact inv.ownRooms i hI x
    · intro r2 hR2 x
      rw [hadE r2, hroomE x]
      by_cases h2 : r2 = room
      · subst h2
        rw [if_pos rfl]
        by_cases hx : x = sid
        · subst hx
          rw [if_pos rfl, mem_sdel]
          constructor
          · rintro ⟨_, hne⟩
            exact absurd rfl hne
          · intro h
            cases h
        · rw [if_neg hx, mem_sdel]
          constructor
          · rintro ⟨hm, _⟩
            exact (inv.dataAd r2 hR2 x).1 hm
          · intro h
            exact ⟨(inv.dataAd r2 hR2 x).2 h, hx⟩
      · rw [if_neg h2]
        by_cases hx : x = sid
        · subst hx
          rw [if_pos rfl]
          constructor
          · intro hm
            have h3 := (inv.dataAd r2 hR2 x).1 hm
            rw [hr] at h3
            injection h3 with h3
            exact absurd h3.symm h2
          · intro h
            cases h
        · rw [if_neg hx]
          exact inv.dataAd r2 hR2 x
    · intro r2 hR2 x
      by_cases h2 : r2 = room
      · subst h2
        rw [hsnE_room, hadE, if_pos rfl]
      · rw [hsnE_ne r2 h2, hadE, if_neg h2]
        exact inv.snapAd r2 hR2 x
    · intro r2 ms h
      rcases hlook r2 ms h with ⟨rfl, rfl, hne⟩ | ⟨_, h3⟩
      · exact ⟨hR, hne⟩
      · exact inv.snapEntries r2 ms h3
    · rw [emitRoomDelta_adapter, snapManualDel_adapter, setConn_adapter]
      exact nodup_adapterLeave st sid room inv.adKeysNodup

theorem disconnectCleanup_none (st0 : HubState) (sid : String) (now : Nat)
    (hr : dataRoom st0 sid = none) :
    disconnectCleanup st0 sid now = (st0, []) := by
  unfold disconnectCleanup
  rw [hr]

theorem disconnectCleanup_some (st0 : HubState) (sid room : String) (now : Nat)
    (hr : dataRoom st0 sid = some room) :
    disconnectCleanup st0 sid now =
      ((emitRoomDelta (snapManualDel st0 room sid) room now).1,
       ⟨.roomExcept room sid,
          .peerLeft ⟨sid, resolvedName st0 sid, rawMeta st0 sid⟩⟩
         :: (emitRoomDelta (snapManualDel st0 room sid) room now).2.1
         ++ (emitRoomMembers
              (emitRoomDelta (snapManualDel st0 room sid) room now).1
              room now).1) := by
  unfold disconnectCleanup
  rw [hr]

theorem handleDisconnect_state (st : HubState) (sid : String) (now : Nat) :
    (handleDisconnect st sid now).1 =
      { (disconnectCleanup (adapterLeaveAll st sid) sid now).1 with
         socks := (disconnectCleanup (adapterLeaveAll st sid) sid now).1.socks.filter
           (fun kv => kv.1 != sid) } := rfl

theorem inv_preserve_disconnect (Rset Iset : String → Prop)
    (disj : ∀ x, Rset x → Iset x → False)
    (st : HubState) (sid : String) (now : Nat) (inv : Inv Rset Iset st) :
    Inv Rset Iset (handleDisconnect st sid now).1 := by
  have hst0socks : (adapterLeaveAll st sid).socks = st.socks := adapterLeaveAll_socks st sid
  have had0 : ∀ r, adMem (adapterLeaveAll st sid) r = sdel (adMem st r) sid := by
    intro r
    exact adMem_adapterLeaveAll st sid r inv.adKeysNodup
  have hroom0 : dataRoom (adapterLeaveAll st sid) sid = dataRoom st sid := by
    unfold dataRoom
    rw [dataOf_eq_of_socks hst0socks]
  have hnodup0 : ((adapterLeaveAll st sid).adapter.map Prod.fst).Nodup :=
    nodupKeys_leaveAllList st.adapter sid inv.adKeysNodup
  rw [handleDisconnect_state]
  cases hr : dataRoom st sid with
  | none =>
    have hclean : disconnectCleanup (adapterLeaveAll st sid) sid now = ((adapterLeaveAll st sid), []) :=
      disconnectCleanup_none (adapterLeaveAll st sid) sid now (by rw [hroom0, hr])
    rw [hclean]
    have hconns : ∀ x, x ∈ conns { (adapterLeaveAll st sid) with
        socks := (adapterLeaveAll st sid).socks.filter (fun kv => kv.1 != sid) } ↔
        (x ∈ conns st ∧ x ≠ sid) := by
      intro x
      show x ∈ ((adapterLeaveAll st sid).socks.filter (fun kv => kv.1 != sid)).map Prod.fst ↔ _
      rw [mem_keys_filter_ne, hst0socks]
      exact Iff.rfl
    have hdata : ∀ x, dataOf { (adapterLeaveAll st sid) with
        socks := (adapterLeaveAll st sid).socks.filter (fun kv => kv.1 != sid) } x =
        if x = sid then none else dataOf st x := by
      intro x
      show alookup ((adapterLeaveAll st sid).socks.filter (fun kv => kv.1 != sid)) x = _
      rw [alookup_filter_ne, hst0socks]
      rfl
    have hroomF : ∀ x, dataRoom { (adapterLeaveAll st sid) with
        socks := (adapterLeaveAll st sid).socks.filter (fun kv => kv.1 != sid) } x =
        if x = sid then none else dataRoom st x := by
      intro x
      unfold dataRoom
      rw [hdata x]
      by_cases hx : x = sid
      · rw [if_pos hx, if_pos hx]
        rfl
      · rw [if_neg hx, if_neg hx]
    have hsid_not : ∀ r2, Rset r2 → sid ∉ adMem st r2 := by
      intro r2 hR2 hm
      have h3 := (inv.dataAd r2 hR2 sid).1 hm
      rw [hr] at h3
      cases h3
    constructor
    · intro x hx
      exact inv.connsI x ((hconns x).1 hx).1
    · intro x r h
      rw [hroomF x] at h
      by_cases hx : x = sid
      · rw [if_pos hx] at h
        cases h
      · rw [if_neg hx] at h
        exact inv.roomsR x r h
    · intro i hI x
      show x ∈ adMem (adapterLeaveAll st sid) i ↔ _
      rw [had0 i, mem_sdel, hconns i]
      rw [inv.ownRooms i hI x]
      constructor
      · rintro ⟨⟨rfl, hc⟩, hne⟩
        exact ⟨rfl, hc, hne⟩
      · rintro ⟨rfl, hc, hne⟩
        exact ⟨⟨rfl, hc⟩, hne⟩
    · intro r2 hR2 x
      show x ∈ adMem (adapterLeaveAll st sid) r2 ↔ _
      rw [had0 r2, mem_sdel, hroomF x]
      by_cases hx : x = sid
      · subst hx
        rw [if_pos rfl]
        constructor
        · rintro ⟨_, hne⟩
          exact absurd rfl hne
        · intro h
          cases h
      · rw [if_neg hx]
        constructor
        · rintro ⟨hm, _⟩
          exact (inv.dataAd r2 hR2 x).1 hm
        · intro h
          exact ⟨(inv.dataAd r2 hR2 x).2 h, hx⟩
    · intro r2 hR2 x
      show x ∈ snMem (adapterLeaveAll st sid) r2 ↔ x ∈ adMem (adapterLeaveAll st sid) r2
      have hsn : snMem (adapterLeaveAll st sid) r2 = snMem st r2 := by
        show (alookup (adapterLeaveAll st sid).snap r2).getD [] = _
        rw [adapterLeaveAll_snap]
        rfl
      rw [hsn, had0 r2, mem_sdel]
      by_cases hx : x = sid
      · subst hx
        constructor
        · intro hm
          exact absurd ((inv.snapAd r2 hR2 x).1 hm) (hsid_not r2 hR2)
        · rintro ⟨_, hne⟩
          exact absurd rfl hne
      · rw [inv.snapAd r2 hR2 x]
        constructor
        · intro hm
          exact ⟨hm, hx⟩
        · exact And.left
    · intro r2 ms h
      replace h : alookup (adapterLeaveAll st sid).snap r2 = some ms := h
      rw [adapterLeaveAll_snap] at h
      exact inv.snapEntries r2 ms h
    · exact hnodup0
  | some room =>
    have hR : Rset room := inv.roomsR sid room hr
    have hclean := disconnectCleanup_some (adapterLeaveAll st sid) sid room now (by rw [hroom0, hr])
    rw [hclean]
    have hE2socks : (emitRoomDelta (snapManualDel (adapterLeaveAll st sid) room sid) room now).1.socks = st.socks := by
      rw [emitRoomDelta_socks, snapManualDel_socks]
      exact hst0socks
    have hconns : ∀ x, x ∈ conns { (emitRoomDelta (snapManualDel (adapterLeaveAll st sid) room sid) room now).1 with
        socks := (emitRoomDelta (snapManualDel (adapterLeaveAll st sid) room sid) room now).1.socks.filter (fun kv => kv.1 != sid) } ↔
        (x ∈ conns st ∧ x ≠ sid) := by
      intro x
      show x ∈ ((emitRoomDelta (snapManualDel (adapterLeaveAll st sid) room sid) room now).1.socks.filter (fun kv => kv.1 != sid)).map Prod.fst ↔ _
      rw [mem_keys_filter_ne, hE2socks]
      exact Iff.rfl
    have hdata : ∀ x, dataOf { (emitRoomDelta (snapManualDel (adapterLeaveAll st sid) room sid) room now).1 with
        socks := (emitRoomDelta (snapManualDel (adapterLeaveAll st sid) room sid) room now).1.socks.filter (fun kv => kv.1 != sid) } x =
        if x = sid then none else dataOf st x := by
      intro x
      show alookup ((emitRoomDelta (snapManualDel (adapterLeaveAll st sid) room sid) room now).1.socks.filter (fun kv => kv.1 != sid)) x = _
      rw [alookup_filter_ne, hE2socks]
      rfl
    have hroomF : ∀ x, dataRoom { (emitRoomDelta (snapManualDel (adapterLeaveAll st sid) room sid) room now).1 with
        socks := (emitRoomDelta (snapManualDel (adapterLeaveAll st sid) room sid) room now).1.socks.filter (fun kv => kv.1 != sid) } x =
        if x = sid then none else dataRoom st x := by
      intro x
      unfold dataRoom
      rw [hdata x]
      by_cases hx : x = sid
      · rw [if_pos hx, if_pos hx]
        rfl
      · rw [if_neg hx, if_neg hx]
    have hadF : ∀ r2, adMem { (emitRoomDelta (snapManualDel (adapterLeaveAll st sid) room sid) room now).1 with
        socks := (emitRoomDelta (snapManualDel (adapterLeaveAll st sid) room sid) room now).1.socks.filter (fun kv => kv.1 != sid) } r2 =
        sdel (adMem st r2) sid := by
      intro r2
      show adMem (emitRoomDelta (snapManualDel (adapterLeaveAll st sid) room sid) room now).1 r2 = _
      rw [adMem_emitRoomDelta, adMem_snapManualDel, had0 r2]
    have hsnF_room : snMem { (emitRoomDelta (snapManualDel (adapterLeaveAll st sid) room sid) room now).1 with
        socks := (emitRoomDelta (snapManualDel (adapterLeaveAll st sid) room sid) room now).1.socks.filter (fun kv => kv.1 != sid) } room =
        sdel (adMem st room) sid := by
      show snMem (emitRoomDelta (snapManualDel (adapterLeaveAll st sid) room sid) room now).1 room = _
      rw [snMem_emitRoomDelta_self, adMem_snapManualDel, had0 room]
    have hsnF_ne : ∀ r2, r2 ≠ room → snMem { (emitRoomDelta (snapManualDel (adapterLeaveAll st sid) room sid) room now).1 with
        socks := (emitRoomDelta (snapManualDel (adapterLeaveAll st sid) room sid) room now).1.socks.filter (fun kv => kv.1 != sid) } r2 =
        snMem st r2 := by
      intro r2 h2
      show snMem (emitRoomDelta (snapManualDel (adapterLeaveAll st sid) room sid) room now).1 r2 = _
      rw [snMem_emitRoomDelta_ne _ _ _ _ h2,
        snMem_snapManualDel_ne _ _ _ _ h2]
      show (alookup (adapterLeaveAll st sid).snap r2).getD [] = _
      rw [adapterLeaveAll_snap]
      rfl
    have hlook : ∀ r2 ms, alookup { (emitRoomDelta (snapManualDel (adapterLeaveAll st sid) room sid) room now).1 with
        socks := (emitRoomDelta (snapManualDel (adapterLeaveAll st sid) room sid) room now).1.socks.filter (fun kv => kv.1 != sid) }.snap r2 = some ms →
        (r2 = room ∧ ms = sdel (adMem st room) sid ∧ ms ≠ []) ∨
        (r2 ≠ room ∧ alookup st.snap r2 = some ms) := by
      intro r2 ms h
      replace h : alookup (emitRoomDelta (snapManualDel (adapterLeaveAll st sid) room sid) room now).1.snap r2 = some ms := h
      rw [snapLookup_emitRoomDelta] at h
      by_cases h2 : r2 = room
      · rw [if_pos h2] at h
        by_cases he : adMem (snapManualDel (adapterLeaveAll st sid) room sid) room = []
        · rw [if_pos he] at h
          cases h
        · rw [if_neg he] at h
          injection h with h
          left
          refine ⟨h2, ?_, ?_⟩
          · rw [← h, adMem_snapManualDel, had0 room]
          · intro hnil
            rw [hnil] at h
            apply he
            rw [← h]
      · rw [if_neg h2] at h
        right
        refine ⟨h2, ?_⟩
        rcases snapLookup_snapManualDel (adapterLeaveAll st sid) room sid r2 with h3 | ⟨h4, _⟩
        · rw [h3] at h
          rw [adapterLeaveAll_snap] at h
          exact h
        · exact absurd h4 h2
    have hsid_not : ∀ r2, Rset r2 → r2 ≠ room → sid ∉ adMem st r2 := by
      intro r2 hR2 hne hm
      have h3 := (inv.dataAd r2 hR2 sid).1 hm
      rw [hr] at h3
      injection h3 with h3
      exact hne h3.symm
    constructor
    · intro x hx
      exact inv.connsI x ((hconns x).1 hx).1
    · intro x r h
      rw [hroomF x] at h
      by_cases hx : x = sid
      · rw [if_pos hx] at h
        cases h
      · rw [if_neg hx] at h
        exact inv.roomsR x r h
    · intro i hI x
      rw [hadF i, mem_sdel, hconns i, inv.ownRooms i hI x]
      constructor
      · rintro ⟨⟨rfl, hc⟩, hne⟩
        exact ⟨rfl, hc, hne⟩
      · rintro ⟨rfl, hc, hne⟩
        exact ⟨⟨rfl, hc⟩, hne⟩
    · intro r2 hR2 x
      rw [hadF r2, mem_sdel, hroomF x]
      by_cases hx : x = sid
      · subst hx
        rw [if_pos rfl]
        constructor
        · rintro ⟨_, hne⟩
          exact absurd rfl hne
        · intro h
          cases h
      · rw [if_neg hx]
        constructor
        · rintro ⟨hm, _⟩
          exact (inv.dataAd r2 hR2 x).1 hm
        · intro h
          exact ⟨(inv.dataAd r2 hR2 x).2 h, hx⟩
    · intro r2 hR2 x
      by_cases h2 : r2 = room
      · subst h2
        rw [hsnF_room, hadF]
      · rw [hsnF_ne r2 h2, hadF, mem_sdel]
        by_cases hx : x = sid
        · subst hx
          constructor
          · intro hm
            exact absurd ((inv.snapAd r2 hR2 x).1 hm) (hsid_not r2 hR2 h2)
          · rintro ⟨_, hne⟩
            exact absurd rfl hne
        · rw [inv.snapAd r2 hR2 x]
          constructor
          · intro hm
            exact ⟨hm, hx⟩
          · exact And.left
    · intro r2 ms h
      rcases hlook r2 ms h with ⟨rfl, rfl, hne⟩ | ⟨_, h3⟩
      · exact ⟨hR, hne⟩
      · exact inv.snapEntries r2 ms h3
    · show ((emitRoomDelta (snapManualDel (adapterLeaveAll st sid) room sid) room now).1.adapter.map Prod.fst).Nodup
      rw [emitRoomDelta_adapter, snapManualDel_adapter]
      exact hnodup0

theorem snapLookup_registerJoin (st2 : HubState) (sid r : String)
    (now : Nat) (r2 : String) :
    alookup (registerJoin st2 sid r now).1.snap r2 =
      if r2 = r then some (sadd (adMem st2 r) sid) else alookup st2.snap r2 := by
  show alookup (emitRoomDelta (snapAdd (setConn (adapterJoin st2 sid r) sid
      (fun d => { d with room := some r })) r sid) r now).1.snap r2 = _
  rw [snapLookup_emitRoomDelta]
  have hads : adMem (snapAdd (setConn (adapterJoin st2 sid r) sid
      (fun d => { d with room := some r })) r sid) r
      = sadd (adMem st2 r) sid := by
    show (alookup (snapAdd (setConn (adapterJoin st2 sid r) sid
      (fun d => { d with room := some r })) r sid).adapter r).getD [] = _
    rw [snapAdd_adapter, setConn_adapter]
    have h := adMem_adapterJoin st2 sid r r
    rw [if_pos rfl] at h
    exact h
  by_cases h2 : r2 = r
  · rw [if_pos h2, if_pos h2, hads, if_neg (sadd_ne_nil (adMem st2 r) sid)]
  · rw [if_neg h2, if_neg h2]
    show alookup (aset (setConn (adapterJoin st2 sid r) sid
      (fun d => { d with room := some r })).snap r
        (sadd (snMem (setConn (adapterJoin st2 sid r) sid
          (fun d => { d with room := some r })) r) sid)) r2 = _
    rw [alookup_aset_ne _ _ h2, setConn_snap, adapterJoin_snap]

theorem conns_registerJoin (st2 : HubState) (sid r : String) (now : Nat) :
    conns (registerJoin st2 sid r now).1 = conns st2 := by
  have h1 : (registerJoin st2 sid r now).1.socks
      = (setConn (adapterJoin st2 sid r) sid
          (fun d => { d with room := some r })).socks :=
    emitRoomDelta_socks _ r now
  rw [conns_eq_of_socks h1, conns_setConn]
  rfl

theorem nodup_registerJoin (st2 : HubState) (sid r : String) (now : Nat)
    (h : (st2.adapter.map Prod.fst).Nodup) :
    ((registerJoin st2 sid r now).1.adapter.map Prod.fst).Nodup := by
  have h0 : (registerJoin st2 sid r now).1.adapter
      = (adapterJoin st2 sid r).adapter := by
    show (emitRoomDelta _ r now).1.adapter = _
    rw [emitRoomDelta_adapter, snapAdd_adapter, setConn_adapter]
  rw [h0]
  exact nodupKeys_aset st2.adapter r _ h

theorem cl_state (st1 : HubState) (sid A : String) (now : Nat)
    (hprev : dataRoom st1 sid = some A) :
    (prevRoomCleanup st1 sid now).1 = (emitRoomDelta (snapManualDel (adapterLeave st1 sid A) A sid) A now).1 :=
  congrArg Prod.fst (prevRoomCleanup_some st1 sid A now hprev)

theorem cl_adMem (st1 : HubState) (sid A : String) (now : Nat)
    (hprev : dataRoom st1 sid = some A) (r2 : String) :
    adMem (prevRoomCleanup st1 sid now).1 r2 =
      if r2 = A then sdel (adMem st1 A) sid else adMem st1 r2 := by
  rw [cl_state st1 sid A now hprev, adMem_emitRoomDelta, adMem_snapManualDel,
    adMem_adapterLeave]

theorem cl_snMem_self (st1 : HubState) (sid A : String) (now : Nat)
    (hprev : dataRoom st1 sid = some A) :
    snMem (prevRoomCleanup st1 sid now).1 A = sdel (adMem st1 A) sid := by
  rw [cl_state st1 sid A now hprev, snMem_emitRoomDelta_self,
    adMem_snapManualDel]
  have h := adMem_adapterLeave st1 sid A A
  rw [if_pos rfl] at h
  exact h

theorem cl_snMem_ne (st1 : HubState) (sid A : String) (now : Nat)
    (hprev : dataRoom st1 sid = some A) (r2 : String) (h2 : r2 ≠ A) :
    snMem (prevRoomCleanup st1 sid now).1 r2 = snMem st1 r2 := by
  rw [cl_state st1 sid A now hprev, snMem_emitRoomDelta_ne _ _ _ _ h2,
    snMem_snapManualDel_ne _ _ _ _ h2, snMem_adapterLeave]

theorem cl_lookup (st1 : HubState) (sid A : String) (now : Nat)
    (hprev : dataRoom st1 sid = some A) (r2 : String) (ms : List String)
    (h : alookup (prevRoomCleanup st1 sid now).1.snap r2 = some ms) :
    (r2 = A ∧ ms = sdel (adMem st1 A) sid ∧ ms ≠ []) ∨
    (r2 ≠ A ∧ alookup st1.snap r2 = some ms) := by
  rw [cl_state st1 sid A now hprev] at h
  rw [snapLookup_emitRoomDelta] at h
  by_cases h2 : r2 = A
  · rw [if_pos h2] at h
    by_cases he : adMem (snapManualDel (adapterLeave st1 sid A) A sid) A = []
    · rw [if_pos he] at h
      cases h
    · rw [if_neg he] at h
      injection h with h
      left
      refine ⟨h2, ?_, ?_⟩
      · rw [← h, adMem_snapManualDel]
        have hh := adMem_adapterLeave st1 sid A A
        rw [if_pos rfl] at hh
        exact hh
      · intro hnil
        rw [hnil] at h
        apply he
        rw [← h]
  · rw [if_neg h2] at h
    right
    refine ⟨h2, ?_⟩
    rcases snapLookup_snapManualDel (adapterLeave st1 sid A) A sid r2
      with h3 | ⟨h4, _⟩
    · rw [h3] at h
      rw [adapterLeave_snap] at h
      exact h
    · exact absurd h4 h2

theorem cl_socks (st1 : HubState) (sid A : String) (now : Nat)
    (hprev : dataRoom st1 sid = some A) :
    (prevRoomCleanup st1 sid now).1.socks = st1.socks := by
  rw [cl_state st1 sid A now hprev, emitRoomDelta_socks, snapManualDel_socks,
    adapterLeave_socks]

theorem cl_nodup (st1 : HubState) (sid A : String) (now : Nat)
    (hprev : dataRoom st1 sid = some A)
    (h : (st1.adapter.map Prod.fst).Nodup) :
    ((prevRoomCleanup st1 sid now).1.adapter.map Prod.fst).Nodup := by
  rw [cl_state st1 sid A now hprev, emitRoomDelta_adapter,
    snapManualDel_adapter]
  exact nodup_adapterLeave st1 sid A h

theorem prevRoomCleanup_none (st1 : HubState) (sid : String) (now : Nat)
    (hprev : dataRoom st1 sid = none) :
    prevRoomCleanup st1 sid now = (st1, []) := by
  unfold prevRoomCleanup
  rw [hprev]

theorem inv_registerJoin (Rset Iset : String → Prop)
    (disj : ∀ x, Rset x → Iset x → False)
    (st2 : HubState) (sid r : String) (now : Nat) (d : ConnData)
    (hR : Rset r)
    (hd : dataOf st2 sid = some d)
    (hconnsI : ∀ x, x ∈ conns st2 → Iset x)
    (hroomsR : ∀ x rr, dataRoom st2 x = some rr → Rset rr)
    (hown : ∀ i, Iset i → ∀ x, x ∈ adMem st2 i ↔ (x = i ∧ i ∈ conns st2))
    (hdataAd : ∀ r2, Rset r2 → ∀ x, x ≠ sid →
      (x ∈ adMem st2 r2 ↔ dataRoom st2 x = some r2))
    (hsidout : ∀ r2, Rset r2 → sid ∉ adMem st2 r2)
    (hsnapAd : ∀ r2, Rset r2 → ∀ x, (x ∈ snMem st2 r2 ↔ x ∈ adMem st2 r2))
    (hentries : ∀ r2 ms, alookup st2.snap r2 = some ms → Rset r2 ∧ ms ≠ [])
    (hnodup : (st2.adapter.map Prod.fst).Nodup) :
    Inv Rset Iset (registerJoin st2 sid r now).1 := by
  have hdataF : ∀ x, dataOf (registerJoin st2 sid r now).1 x =
      if x = sid then some { d with room := some r } else dataOf st2 x := by
    intro x
    rw [dataOf_registerJoin]
    by_cases hx : x = sid
    · rw [if_pos hx, if_pos hx, hd]
      rfl
    · rw [if_neg hx, if_neg hx]
  have hroomF : ∀ x, dataRoom (registerJoin st2 sid r now).1 x =
      if x = sid then some r else dataRoom st2 x := by
    intro x
    unfold dataRoom
    rw [hdataF x]
    by_cases hx : x = sid
    · rw [if_pos hx, if_pos hx]
      rfl
    · rw [if_neg hx, if_neg hx]
  constructor
  · intro x hx
    rw [conns_registerJoin] at hx
    exact hconnsI x hx
  · intro x rr h
    rw [hroomF x] at h
    by_cases hx : x = sid
    · rw [if_pos hx] at h
      injection h with h
      rw [← h]
      exact hR
    · rw [if_neg hx] at h
      exact hroomsR x rr h
  · intro i hI x
    have hir : i ≠ r := fun hh => disj i (hh ▸ hR) hI
    rw [adMem_registerJoin, if_neg hir, conns_registerJoin]
    exact hown i hI x
  · intro r2 hR2 x
    rw [adMem_registerJoin, hroomF x]
    by_cases h2 : r2 = r
    · subst h2
      rw [if_pos rfl]
      rw [mem_sadd]
      by_cases hx : x = sid
      · subst hx
        rw [if_pos rfl]
        constructor
        · intro _
          rfl
        · intro _
          exact Or.inr rfl
      · rw [if_neg hx]
        constructor
        · rintro (hm | hm)
          · exact (hdataAd r2 hR2 x hx).1 hm
          · exact absurd hm hx
        · intro h
          exact Or.inl ((hdataAd r2 hR2 x hx).2 h)
    · rw [if_neg h2]
      by_cases hx : x = sid
      · subst hx
        rw [if_pos rfl]
        constructor
        · intro hm
          exact absurd hm (hsidout r2 hR2)
        · intro h
          injection h with h
          exact absurd h.symm h2
      · rw [if_neg hx]
        exact hdataAd r2 hR2 x hx
  · intro r2 hR2 x
    by_cases h2 : r2 = r
    · subst h2
      rw [snMem_registerJoin_self, adMem_registerJoin, if_pos rfl]
    · rw [snMem_registerJoin_ne _ _ _ _ _ h2, adMem_registerJoin, if_neg h2]
      exact hsnapAd r2 hR2 x
  · intro r2 ms h
    rw [snapLookup_registerJoin] at h
    by_cases h2 : r2 = r
    · rw [if_pos h2] at h
      injection h with h
      exact ⟨h2 ▸ hR, h ▸ sadd_ne_nil (adMem st2 r) sid⟩
    · rw [if_neg h2] at h
      exact hentries r2 ms h
  · exact nodup_registerJoin st2 sid r now hnodup

theorem inv_switch (Rset Iset : String → Prop)
    (disj : ∀ x, Rset x → Iset x → False)
    (st1 : HubState) (sid r : String) (now : Nat)
    (inv1 : Inv Rset Iset st1) (hconn : sid ∈ conns st1) (hR : Rset r) :
    Inv Rset Iset (registerJoin (prevRoomCleanup st1 sid now).1 sid r now).1 := by
  obtain ⟨d1, hd1⟩ := mem_conns_dataOf hconn
  cases hprev : dataRoom st1 sid with
  | none =>
    have hid : (prevRoomCleanup st1 sid now).1 = st1 := by
      rw [prevRoomCleanup_none st1 sid now hprev]
    rw [hid]
    refine inv_registerJoin Rset Iset disj st1 sid r now d1 hR hd1
      inv1.connsI inv1.roomsR inv1.ownRooms ?_ ?_ inv1.snapAd
      inv1.snapEntries inv1.adKeysNodup
    · intro r2 hR2 x _
      exact inv1.dataAd r2 hR2 x
    · intro r2 hR2 hm
      have h3 := (inv1.dataAd r2 hR2 sid).1 hm
      rw [hprev] at h3
      cases h3
  | some A =>
    have hRA : Rset A := inv1.roomsR sid A hprev
    refine inv_registerJoin Rset Iset disj _ sid r now d1 hR ?_
      ?_ ?_ ?_ ?_ ?_ ?_ ?_ ?_
    · show alookup (prevRoomCleanup st1 sid now).1.socks sid = some d1
      rw [cl_socks st1 sid A now hprev]
      exact hd1
    · intro x hx
      rw [conns_eq_of_socks (cl_socks st1 sid A now hprev)] at hx
      exact inv1.connsI x hx
    · intro x rr h
      unfold dataRoom at h
      rw [dataOf_eq_of_socks (cl_socks st1 sid A now hprev)] at h
      exact inv1.roomsR x rr h
    · intro i hI x
      have hiA : i ≠ A := fun hh => disj i (hh ▸ hRA) hI
      rw [cl_adMem st1 sid A now hprev, if_neg hiA,
        conns_eq_of_socks (cl_socks st1 sid A now hprev)]
      exact inv1.ownRooms i hI x
    · intro r2 hR2 x hx
      have hroomC : dataRoom (prevRoomCleanup st1 sid now).1 x
          = dataRoom st1 x := by
        unfold dataRoom
        rw [dataOf_eq_of_socks (cl_socks st1 sid A now hprev)]
      rw [cl_adMem st1 sid A now hprev, hroomC]
      by_cases h2 : r2 = A
      · subst h2
        rw [if_pos rfl, mem_sdel]
        constructor
        · rintro ⟨hm, _⟩
          exact (inv1.dataAd r2 hR2 x).1 hm
        · intro h
          exact ⟨(inv1.dataAd r2 hR2 x).2 h, hx⟩
      · rw [if_neg h2]
        exact inv1.dataAd r2 hR2 x
    · intro r2 hR2
      rw [cl_adMem st1 sid A now hprev]
      by_cases h2 : r2 = A
      · rw [if_pos h2, mem_sdel]
        rintro ⟨_, hne⟩
        exact hne rfl
      · rw [if_neg h2]
        intro hm
        have h3 := (inv1.dataAd r2 hR2 sid).1 hm
        rw [hprev] at h3
        injection h3 with h3
        exact h2 h3.symm
    · intro r2 hR2 x
      by_cases h2 : r2 = A
      · subst h2
        rw [cl_snMem_self st1 sid r2 now hprev,
          cl_adMem st1 sid r2 now hprev, if_pos rfl]
      · rw [cl_snMem_ne st1 sid A now hprev r2 h2,
          cl_adMem st1 sid A now hprev, if_neg h2]
        exact inv1.snapAd r2 hR2 x
    · intro r2 ms h
      rcases cl_lookup st1 sid A now hprev r2 ms h with ⟨rfl, rfl, hne⟩ | ⟨_, h3⟩
      · exact ⟨hRA, hne⟩
      · exact inv1.snapEntries r2 ms h3
    · exact cl_nodup st1 sid A now hprev inv1.adKeysNodup

theorem handleJoin_state_nameless (st : HubState) (sid : String)
    (room : Option String) (name clientMeta : JsVal) (now : Nat)
    (h1 : (match name with | .prim (.strV s) => jsTrim s | _ => "") = "") :
    (handleJoin st sid room name clientMeta now).1 = st := by
  simp only [handleJoin]
  rw [if_pos h1]

theorem inv_preserve_join (Rset Iset : String → Prop)
    (disj : ∀ x, Rset x → Iset x → False)
    (st : HubState) (sid : String) (room : Option String)
    (name clientMeta : JsVal) (now : Nat)
    (hconn : sid ∈ conns st)
    (hok : ∀ r, room = some r → Rset r)
    (inv : Inv Rset Iset st) :
    Inv Rset Iset (handleJoin st sid room name clientMeta now).1 := by
  cases name with
  | objV fs =>
    rw [handleJoin_state_nameless st sid room _ clientMeta now rfl]
    exact inv
  | prim p =>
    cases p with
    | undef =>
      rw [handleJoin_state_nameless st sid room _ clientMeta now rfl]
      exact inv
    | null =>
      rw [handleJoin_state_nameless st sid room _ clientMeta now rfl]
      exact inv
    | boolV b =>
      rw [handleJoin_state_nameless st sid room _ clientMeta now rfl]
      exact inv
    | numV n =>
      rw [handleJoin_state_nameless st sid room _ clientMeta now rfl]
      exact inv
    | strV s =>
      by_cases hs : jsTrim s = ""
      · rw [handleJoin_state_nameless st sid room _ clientMeta now hs]
        exact inv
      · cases hob : optTruthy room with
        | false =>
          have hexp : (handleJoin st sid room (.prim (.strV s)) clientMeta now).1 = st := by
            simp only [handleJoin]
            rw [if_neg hs, hob]
            simp only [Bool.not_false, if_true]
          rw [hexp]
          exact inv
        | true =>
          obtain ⟨r, rfl⟩ : ∃ r, room = some r := by
            cases room with
            | none => simp [optTruthy] at hob
            | some r => exact ⟨r, rfl⟩
          have hR : Rset r := hok r rfl
          have inv1 : Inv Rset Iset (setConn st sid (fun d => { d with name := sanitizeName (.prim (.strV (jsTrim s))), meta := sanitizeMeta clientMeta now })) :=
            inv_setConn_roomPreserving Rset Iset st sid _ (fun d => rfl) inv
          have hconn1 : sid ∈ conns (setConn st sid (fun d => { d with name := sanitizeName (.prim (.strV (jsTrim s))), meta := sanitizeMeta clientMeta now })) := by
            rw [conns_setConn]
            exact hconn
          by_cases hsame : dataRoom (setConn st sid (fun d => { d with name := sanitizeName (.prim (.strV (jsTrim s))), meta := sanitizeMeta clientMeta now })) sid = some r
          · have hexp : (handleJoin st sid (some r) (.prim (.strV s)) clientMeta now).1 = setConn st sid (fun d => { d with name := sanitizeName (.prim (.strV (jsTrim s))), meta := sanitizeMeta clientMeta now }) := by
              simp only [handleJoin]
              rw [if_neg hs, hob]
              simp only [Bool.not_true, Bool.false_eq_true, if_false,
                Option.getD_some]
              rw [if_pos hsame]
            rw [hexp]
            exact inv1
          · have hexp : (handleJoin st sid (some r) (.prim (.strV s)) clientMeta now).1 = (registerJoin (prevRoomCleanup (setConn st sid (fun d => { d with name := sanitizeName (.prim (.strV (jsTrim s))), meta := sanitizeMeta clientMeta now })) sid now).1 sid r now).1 := by
              simp only [handleJoin]
              rw [if_neg hs, hob]
              simp only [Bool.not_true, Bool.false_eq_true, if_false,
                Option.getD_some]
              rw [if_neg hsame]
            rw [hexp]
            exact inv_switch Rset Iset disj _ sid r now inv1 hconn1 hR

theorem inv_preserve_connect (Rset Iset : String → Prop)
    (disj : ∀ x, Rset x → Iset x → False)
    (st : HubState) (sid : String) (hI : Iset sid)
    (hnc : sid ∉ conns st) (inv : Inv Rset Iset st) :
    Inv Rset Iset { st with socks := st.socks ++ [(sid, ⟨"Anonymous", none, []⟩)], adapter := aset st.adapter sid (sadd (adMem st sid) sid) } := by
  have hadnil : adMem st sid = [] := by
    refine list_eq_nil_of_no_mem ?_
    intro x hx
    exact hnc ((inv.ownRooms sid hI x).1 hx).2
  have hsadd : sadd (adMem st sid) sid = [sid] := by
    rw [hadnil]
    simp [sadd]
  have hconnsN : conns { st with socks := st.socks ++ [(sid, ⟨"Anonymous", none, []⟩)], adapter := aset st.adapter sid (sadd (adMem st sid) sid) } = conns st ++ [sid] := by
    show (st.socks ++ [(sid, (⟨"Anonymous", none, []⟩ : ConnData))]).map Prod.fst = _
    rw [List.map_append]
    rfl
  have hlook0 : alookup st.socks sid = none :=
    alookup_eq_none_of_not_mem_keys hnc
  have hdata_sid : dataOf { st with socks := st.socks ++ [(sid, ⟨"Anonymous", none, []⟩)], adapter := aset st.adapter sid (sadd (adMem st sid) sid) } sid = some ⟨"Anonymous", none, []⟩ := by
    show alookup (st.socks ++ [(sid, (⟨"Anonymous", none, []⟩ : ConnData))]) sid = _
    rw [alookup_append, hlook0]
    simp [alookup]
  have hdata_ne : ∀ x, x ≠ sid → dataOf { st with socks := st.socks ++ [(sid, ⟨"Anonymous", none, []⟩)], adapter := aset st.adapter sid (sadd (adMem st sid) sid) } x = dataOf st x := by
    intro x hx
    show alookup (st.socks ++ [(sid, (⟨"Anonymous", none, []⟩ : ConnData))]) x
        = alookup st.socks x
    rw [alookup_append]
    cases hh : alookup st.socks x with
    | some v => rfl
    | none =>
      have hne : ¬ sid = x := fun hh2 => hx hh2.symm
      simp [alookup, hne]
  have hroom_sid : dataRoom { st with socks := st.socks ++ [(sid, ⟨"Anonymous", none, []⟩)], adapter := aset st.adapter sid (sadd (adMem st sid) sid) } sid = none := by
    unfold dataRoom
    rw [hdata_sid]
    rfl
  have hroom_ne : ∀ x, x ≠ sid → dataRoom { st with socks := st.socks ++ [(sid, ⟨"Anonymous", none, []⟩)], adapter := aset st.adapter sid (sadd (adMem st sid) sid) } x = dataRoom st x := by
    intro x hx
    unfold dataRoom
    rw [hdata_ne x hx]
  have hadN : ∀ r2, adMem { st with socks := st.socks ++ [(sid, ⟨"Anonymous", none, []⟩)], adapter := aset st.adapter sid (sadd (adMem st sid) sid) } r2 = if r2 = sid then [sid] else adMem st r2 := by
    intro r2
    by_cases h2 : r2 = sid
    · subst h2
      rw [if_pos rfl]
      show (alookup (aset st.adapter r2 (sadd (adMem st r2) r2)) r2).getD [] = _
      rw [alookup_aset_self, hsadd]
      rfl
    · rw [if_neg h2]
      show (alookup (aset st.adapter sid (sadd (adMem st sid) sid)) r2).getD [] = _
      rw [alookup_aset_ne _ _ h2]
      rfl
  have hsnN : ∀ r2, snMem { st with socks := st.socks ++ [(sid, ⟨"Anonymous", none, []⟩)], adapter := aset st.adapter sid (sadd (adMem st sid) sid) } r2 = snMem st r2 := fun r2 => rfl
  constructor
  · intro x hx
    rw [hconnsN] at hx
    rcases List.mem_append.1 hx with h | h
    · exact inv.connsI x h
    · rw [List.mem_singleton] at h
      rw [h]
      exact hI
  · intro x rr h
    by_cases hx : x = sid
    · subst hx
      rw [hroom_sid] at h
      cases h
    · rw [hroom_ne x hx] at h
      exact inv.roomsR x rr h
  · intro i hIi x
    have hsidN : sid ∈ conns { st with socks := st.socks ++ [(sid, ⟨"Anonymous", none, []⟩)], adapter := aset st.adapter sid (sadd (adMem st sid) sid) } := by
      rw [hconnsN]
      exact List.mem_append.2 (Or.inr (List.mem_singleton.2 rfl))
    rw [hadN i]
    by_cases hi : i = sid
    · subst hi
      rw [if_pos rfl, List.mem_singleton]
      constructor
      · intro h
        exact ⟨h, hsidN⟩
      · intro h
        exact h.1
    · rw [if_neg hi]
      have hmem : i ∈ conns { st with socks := st.socks ++ [(sid, ⟨"Anonymous", none, []⟩)], adapter := aset st.adapter sid (sadd (adMem st sid) sid) } ↔ i ∈ conns st := by
        rw [hconnsN]
        constructor
        · intro h
          rcases List.mem_append.1 h with h | h
          · exact h
          · exact absurd (List.mem_singleton.1 h) hi
        · intro h
          exact List.mem_append.2 (Or.inl h)
      rw [hmem]
      exact inv.ownRooms i hIi x
  · intro r2 hR2 x
    have hr2 : r2 ≠ sid := fun hh => disj sid (hh ▸ hR2) hI
    rw [hadN r2, if_neg hr2]
    by_cases hx : x = sid
    · subst hx
      constructor
      · intro h
        have h2 := (inv.dataAd r2 hR2 x).1 h
        unfold dataRoom dataOf at h2
        rw [hlook0] at h2
        cases h2
      · intro h
        rw [hroom_sid] at h
        cases h
    · rw [hroom_ne x hx]
      exact inv.dataAd r2 hR2 x
  · intro r2 hR2 x
    have hr2 : r2 ≠ sid := fun hh => disj sid (hh ▸ hR2) hI
    rw [hsnN r2, hadN r2, if_neg hr2]
    exact inv.snapAd r2 hR2 x
  · intro r2 ms h
    exact inv.snapEntries r2 ms h
  · exact nodupKeys_aset st.adapter sid _ inv.adKeysNodup

theorem handleSignal_state (st : HubState) (sid : String)
    (toTarget : Option String) (data : JsVal) :
    (handleSignal st sid toTarget data).1 = st := by
  unfold handleSignal
  split
  · rfl
  · split
    · rfl
    · split
      · rfl
      · rfl

theorem handleChat_state (st : HubState) (sid : String)
    (room : Option String) (text : JsVal) :
    (handleChat st sid room text).1 = st := by
  unfold handleChat
  split
  · rfl
  · split
    · rfl
    · rfl

theorem inv_step (Rset Iset : String → Prop)
    (disj : ∀ x, Rset x → Iset x → False)
    (st : HubState) (ev : Event) (now : Nat)
    (hok : evOK Rset Iset ev) (inv : Inv Rset Iset st) :
    Inv Rset Iset (step st ev now).1 := by
  cases ev with
  | connect sid =>
    simp only [step]
    by_cases h : sid ∈ conns st
    · rw [if_pos h]
      exact inv
    · rw [if_neg h]
      exact inv_preserve_connect Rset Iset disj st sid hok h inv
  | join sid room name meta =>
    simp only [step]
    by_cases h : sid ∈ conns st
    · rw [if_pos h]
      exact inv_preserve_join Rset Iset disj st sid room name meta now h hok inv
    · rw [if_neg h]
      exact inv
  | signal sid toT data =>
    simp only [step]
    by_cases h : sid ∈ conns st
    · rw [if_pos h, handleSignal_state]
      exact inv
    · rw [if_neg h]
      exact inv
  | chat sid room text =>
    simp only [step]
    by_cases h : sid ∈ conns st
    · rw [if_pos h, handleChat_state]
      exact inv
    · rw [if_neg h]
      exact inv
  | leave sid =>
    simp only [step]
    by_cases h : sid ∈ conns st
    · rw [if_pos h]
      exact inv_preserve_leave Rset Iset disj st sid now inv
    · rw [if_neg h]
      exact inv
  | disconnect sid =>
    simp only [step]
    by_cases h : sid ∈ conns st
    · rw [if_pos h]
      exact inv_preserve_disconnect Rset Iset disj st sid now inv
    · rw [if_neg h]
      exact inv

theorem inv_runAux (Rset Iset : String → Prop)
    (disj : ∀ x, Rset x → Iset x → False)
    (evs : List Event) :
    ∀ (st : HubState) (n : Nat),
      (∀ ev ∈ evs, evOK Rset Iset ev) → Inv Rset Iset st →
      Inv Rset Iset (runAux st evs n).1 := by
  induction evs with
  | nil =>
    intro st n _ inv
    exact inv
  | cons ev rest ih =>
    intro st n hok inv
    show Inv Rset Iset (runAux (step st ev n).1 rest (n + 1)).1
    exact ih (step st ev n).1 (n + 1)
      (fun e he => hok e (List.mem_cons_of_mem _ he))
      (inv_step Rset Iset disj st ev n (hok ev (List.mem_cons_self _ _)) inv)

theorem inv_run (Rset Iset : String → Prop)
    (disj : ∀ x, Rset x → Iset x → False)
    (evs : List Event)
    (hok : ∀ ev ∈ evs, evOK Rset Iset ev) :
    Inv Rset Iset (runState evs) :=
  inv_runAux Rset Iset disj evs initState 0 hok (inv_init Rset Iset)

/-- C9 (confirmed): the chat relay performs no sender-membership check —
even a sender that is a member of no room at all gets its message
broadcast to the members of the room named in the payload, the payload's
room field alone selecting the recipients. -/
theorem C9_chat_no_membership_check (st : HubState) (sid r s : String)
    (hr : r ≠ "") (hnotmem : sid ∉ adMem st r)
    (hnoroom : dataRoom st sid = none) :
    (handleChat st sid (some r) (.prim (.strV s))).2
      = [⟨.roomExcept r sid, .chatMsg sid (resolvedName st sid) s⟩] ∧
    (∀ x, x ∈ recipients st (.roomExcept r sid) ↔ (x ∈ adMem st r ∧ x ≠ sid)) := by
  refine ⟨?_, fun x => mem_recipients_roomExcept st r sid x⟩
  rw [handleChat_ok st sid r s hr]

/-- C9 witness: in a run where only b joined room "R", the roomless socket
a chats to "R" and the relay still addresses everyone in "R" but a. -/
theorem C9_chat_no_membership_check_witness :
    (¬ ("R" : String) = "" ∧
     "a" ∉ adMem (runState chatGhostTrace) "R" ∧
     dataRoom (runState chatGhostTrace) "a" = none) ∧
    ((handleChat (runState chatGhostTrace) "a" (some "R") (.prim (.strV "hi"))).2
      = [⟨.roomExcept "R" "a",
          .chatMsg "a" (resolvedName (runState chatGhostTrace) "a") "hi"⟩] ∧
     (∀ x, x ∈ recipients (runState chatGhostTrace) (.roomExcept "R" "a") ↔
        (x ∈ adMem (runState chatGhostTrace) "R" ∧ x ≠ "a"))) :=
  ⟨⟨by decide, by decide, by decide⟩,
   C9_chat_no_membership_check (runState chatGhostTrace) "a" "R" "hi"
     (by decide) (by decide) (by decide)⟩

/-- C1 (corrected): provided no joined room name collides with a connected
socket id, after any event sequence a socket id appears in a room's
snapshot member set iff that socket's stored `room` field names that room,
and no socket is a member of two distinct rooms.  (Unamended, the claim
fails: the shared adapter namespace lets a room named after a live socket
id capture that socket.) -/
theorem C1_membership_iff_amended (evs : List Event)
    (hdisj : ∀ r i, joinsRoom evs r → connectsId evs i → r ≠ i) :
    (∀ r x, x ∈ snMem (runState evs) r ↔
       dataRoom (runState evs) x = some r) ∧
    (∀ r1 r2 x, x ∈ snMem (runState evs) r1 →
       x ∈ snMem (runState evs) r2 → r1 = r2) := by
  have disj : ∀ y, joinsRoom evs y → connectsId evs y → False :=
    fun y hR hI => hdisj y y hR hI rfl
  have hok : ∀ ev ∈ evs, evOK (joinsRoom evs) (connectsId evs) ev := by
    intro ev he
    cases ev with
    | connect sid => exact he
    | join sid room name meta =>
      intro r hr
      subst hr
      exact ⟨sid, name, meta, he⟩
    | signal sid toT data => trivial
    | chat sid room text => trivial
    | leave sid => trivial
    | disconnect sid => trivial
  have inv := inv_run (joinsRoom evs) (connectsId evs) disj evs hok
  have hmem : ∀ r x, x ∈ snMem (runState evs) r → joinsRoom evs r := by
    intro r x hx
    cases hl : alookup (runState evs).snap r with
    | none =>
      have hnil : snMem (runState evs) r = [] := by
        show (alookup (runState evs).snap r).getD [] = []
        rw [hl]
        rfl
      rw [hnil] at hx
      cases hx
    | some ms => exact (inv.snapEntries r ms hl).1
  constructor
  · intro r x
    by_cases hR : joinsRoom evs r
    · exact (inv.snapAd r hR x).trans (inv.dataAd r hR x)
    · constructor
      · intro hx
        exact absurd (hmem r x hx) hR
      · intro hx
        exact absurd (inv.roomsR x r hx) hR
  · intro r1 r2 x h1 h2
    have hR1 := hmem r1 x h1
    have hR2 := hmem r2 x h2
    have e1 := (inv.dataAd r1 hR1 x).1 ((inv.snapAd r1 hR1 x).1 h1)
    have e2 := (inv.dataAd r2 hR2 x).1 ((inv.snapAd r2 hR2 x).1 h2)
    rw [e1] at e2
    exact Option.some.inj e2

/-- C1 witness: the collision-free proviso holds on a simple join trace and
the membership iff follows from the theorem. -/
theorem C1_membership_iff_amended_witness :
    (∀ r i, joinsRoom soloJoinTrace r → connectsId soloJoinTrace i → r ≠ i) ∧
    ((∀ r x, x ∈ snMem (runState soloJoinTrace) r ↔
        dataRoom (runState soloJoinTrace) x = some r) ∧
     (∀ r1 r2 x, x ∈ snMem (runState soloJoinTrace) r1 →
        x ∈ snMem (runState soloJoinTrace) r2 → r1 = r2)) := by
  have hd : ∀ r i, joinsRoom soloJoinTrace r → connectsId soloJoinTrace i →
      r ≠ i := by
    intro r i hr hi
    obtain ⟨sid, name, meta, hm⟩ := hr
    simp only [soloJoinTrace, List.mem_cons, List.not_mem_nil, or_false] at hm
    simp only [connectsId, soloJoinTrace, List.mem_cons, List.not_mem_nil,
      or_false] at hi
    rcases hm with hm | hm
    · injection hm
    · rcases hi with hi | hi
      · injection hm with h1 h2 h3 h4
        injection h2 with h2
        injection hi with h5
        rw [h2, h5]
        decide
      · injection hi
  exact ⟨hd, C1_membership_iff_amended soloJoinTrace hd⟩

/-- C1 counterexample: after `collisionTrace`, socket a is simultaneously
in the snapshot member sets of rooms "a" and "x", and it sits in room "a"'s
member set although its stored room field is "x". -/
theorem C1_collision_cex :
    "a" ∈ snMem (runState collisionTrace) "a" ∧
    "a" ∈ snMem (runState collisionTrace) "x" ∧
    ("a" : String) ≠ "x" ∧
    ¬ dataRoom (runState collisionTrace) "a" = some "a" := by
  decide

/-- C5 (corrected): provided no joined room name collides with a connected
socket id, every snapshot entry of a reachable state is nonempty and its
room has at least one live member — empty rooms are pruned.  (Unamended,
the claim fails: disconnecting a socket whose id names a snapshotted room
strands a nonempty snapshot entry for a room with no live members.) -/
theorem C5_empty_room_pruned_amended (evs : List Event)
    (hdisj : ∀ r i, joinsRoom evs r → connectsId evs i → r ≠ i) :
    ∀ r ms, alookup (runState evs).snap r = some ms →
      ms ≠ [] ∧ adMem (runState evs) r ≠ [] := by
  have disj : ∀ y, joinsRoom evs y → connectsId evs y → False :=
    fun y hR hI => hdisj y y hR hI rfl
  have hok : ∀ ev ∈ evs, evOK (joinsRoom evs) (connectsId evs) ev := by
    intro ev he
    cases ev with
    | connect sid => exact he
    | join sid room name meta =>
      intro r hr
      subst hr
      exact ⟨sid, name, meta, he⟩
    | signal sid toT data => trivial
    | chat sid room text => trivial
    | leave sid => trivial
    | disconnect sid => trivial
  have inv := inv_run (joinsRoom evs) (connectsId evs) disj evs hok
  intro r ms hl
  have h1 := inv.snapEntries r ms hl
  refine ⟨h1.2, ?_⟩
  obtain ⟨x, hx⟩ := List.exists_mem_of_ne_nil ms h1.2
  have hsn : x ∈ snMem (runState evs) r := by
    show x ∈ (alookup (runState evs).snap r).getD []
    rw [hl]
    exact hx
  have had := (inv.snapAd r h1.1 x).1 hsn
  intro hnil
  rw [hnil] at had
  cases had

/-- C5 witness: on a collision-free join-then-leave trace the theorem
applies; the emptied room leaves no snapshot entry behind. -/
theorem C5_empty_room_pruned_amended_witness :
    (∀ r i, joinsRoom joinLeaveTrace r → connectsId joinLeaveTrace i →
       r ≠ i) ∧
    (∀ r ms, alookup (runState joinLeaveTrace).snap r = some ms →
       ms ≠ [] ∧ adMem (runState joinLeaveTrace) r ≠ []) := by
  have hd : ∀ r i, joinsRoom joinLeaveTrace r → connectsId joinLeaveTrace i →
      r ≠ i := by
    intro r i hr hi
    obtain ⟨sid, name, meta, hm⟩ := hr
    simp only [joinLeaveTrace, List.mem_cons, List.not_mem_nil, or_false] at hm
    simp only [connectsId, joinLeaveTrace, List.mem_cons, List.not_mem_nil,
      or_false] at hi
    rcases hm with hm | hm | hm | hm
    · injection hm
    · injection hm
    · rcases hi with hi | hi | hi | hi
      · injection hm with h1 h2 h3 h4
        injection h2 with h2
        injection hi with h5
        rw [h2, h5]
        decide
      · injection hm with h1 h2 h3 h4
        injection h2 with h2
        injection hi with h5
        rw [h2, h5]
        decide
      · injection hi
      · injection hi
    · injection hm
  exact ⟨hd, C5_empty_room_pruned_amended joinLeaveTrace hd⟩

/-- C5 counterexample: after `staleTrace` — where the disconnecting socket
a's id names a room b had joined and left — the snapshot still maps room
"a" to the nonempty member list ["a"] although the room has no live
members. -/
theorem C5_stale_snapshot_cex :
    alookup (runState staleTrace).snap "a" = some ["a"] ∧
    adMem (runState staleTrace) "a" = [] ∧
    Event.disconnect "a" ∈ staleTrace := by
  decide

end Hub
